import Mathlib

/-!
# TracePlotHandler: sample decoding, trigger engine and deferred state commit

A shallow embedding of `src/PlotHandler/TracePlotHandler.cpp`.

* `Double` carries the values of the C++ type `double` (IEEE-754 binary64): the three
  special values and the finite ones, the latter exactly, as integer multiples of the
  smallest subnormal `2^-1074`.  Signed zeros are identified (the program never divides
  and never inspects a sign bit).
* Machine integers are `Nat`/`Int` with explicit reductions modulo `2^32`.
* The reader (`TraceReader`) is an external collaborator: what it answers during one loop
  iteration is an input of the iteration (`ReaderAnswers`), and the calls made to it are
  recorded in `Handler.calls`.
* Reads and writes outside a fixed-size array are undefined behaviour in the source;
  the functions doing them return `none` there.
-/

namespace TracePlotHandler

/-! ## The type `double` -/

/-- Values of the C++ type `double`.  `fin n` is the real number `n * 2^-1074`. -/
inductive Double where
  | nan : Double
  | ninf : Double
  | pinf : Double
  | fin (n : Int) : Double
deriving DecidableEq, Repr

namespace Double

/-- The double `1.0` counted in units of `2^-1074`. -/
def scale : Nat := 2 ^ 1074

/-- First magnitude (in units of `2^-1074`) that no longer is a finite double: `2^1024`. -/
def overflowAt : Nat := 2 ^ 2098

/-- Conversion of an integer to `double`; exact for the 32-bit integers the program converts. -/
def ofInt (z : Int) : Double := fin (z * (scale : Int))

/-- Conversion of an unsigned integer to `double`. -/
def ofNat (n : Nat) : Double := ofInt (n : Int)

/-- The constant `0.0`. -/
def zero : Double := ofInt 0

/-- The constant `1.0`. -/
def one : Double := ofInt 1

/-- Nearest integer to `n / 2^s`, ties to even. -/
def rne (n s : Nat) : Nat :=
  let q := n / 2 ^ s
  let r := n % 2 ^ s
  if 2 * r < 2 ^ s then q
  else if 2 ^ s < 2 * r then q + 1
  else if q % 2 = 0 then q else q + 1

/-- One step of the binary search for the leading bit: `acc.1` is what is left of the
number after `acc.2` low bits were shifted out. -/
def log2Step (acc : Nat × Nat) (k : Nat) : Nat × Nat :=
  if 2 ^ k ≤ acc.1 then (acc.1 / 2 ^ k, acc.2 + k) else acc

/-- Floor of the binary logarithm, `0` at `0`.  Below `2^8192`, which covers the exact
sum and the exact product of any two finite doubles, it is found by binary search. -/
def ilog2 (n : Nat) : Nat :=
  if n / 2 ^ 4096 < 2 ^ 4096 then
    ([4096, 2048, 1024, 512, 256, 128, 64, 32, 16, 8, 4, 2, 1].foldl log2Step (n, 0)).2
  else Nat.log2 n

/-- The signed result of an operation whose magnitude, already rounded, is `m` units:
infinite from `2^1024` on. -/
def pack (negative : Bool) (m : Nat) : Double :=
  if overflowAt ≤ m then (if negative then ninf else pinf)
  else fin (if negative then -(m : Int) else (m : Int))

/-- Round-to-nearest-even of the exact value `z * 2^-1074` to 53 significant bits. -/
def round (z : Int) : Double :=
  let m := z.natAbs
  let s := ilog2 m - 52
  pack (decide (z < 0)) (rne m s * 2 ^ s)

/-- Round-to-nearest-even of the exact value `z * 2^-2148` (a product of two finite
doubles) to 53 significant bits and to a multiple of `2^-1074`. -/
def roundProduct (z : Int) : Double :=
  let m := z.natAbs
  let s := max (ilog2 m - 52) 1074
  pack (decide (z < 0)) (rne m s * 2 ^ (s - 1074))

/-- The operator `+` on `double`. -/
def add : Double → Double → Double
  | nan, _ => nan
  | _, nan => nan
  | pinf, ninf => nan
  | ninf, pinf => nan
  | pinf, _ => pinf
  | _, pinf => pinf
  | ninf, _ => ninf
  | _, ninf => ninf
  | fin a, fin b => round (a + b)

/-- Sign of a non-NaN double: `-1`, `0` or `1`. -/
def sign : Double → Int
  | nan => 0
  | ninf => -1
  | pinf => 1
  | fin a => Int.sign a

/-- The operator `*` on `double`. -/
def mul : Double → Double → Double
  | nan, _ => nan
  | _, nan => nan
  | fin a, fin b => roundProduct (a * b)
  | x, y =>
    if sign x * sign y = 0 then nan
    else if sign x * sign y < 0 then ninf else pinf

/-- The operator `<` on `double`: false as soon as one side is NaN. -/
def lt : Double → Double → Bool
  | nan, _ => false
  | _, nan => false
  | fin a, fin b => decide (a < b)
  | ninf, ninf => false
  | ninf, _ => true
  | pinf, _ => false
  | fin _, pinf => true
  | fin _, ninf => false

/-- The operator `>` on `double`. -/
def gt (x y : Double) : Bool := lt y x

/-- The operator `>=` on `double`: false as soon as one side is NaN. -/
def ge : Double → Double → Bool
  | nan, _ => false
  | _, nan => false
  | x, y => !(lt x y)

/-- The literal `0.9`: the double nearest to nine tenths, `8106479329266893 * 2^-53`
(bit pattern `0x3FECCCCCCCCCCCCD`). -/
def ninetenths : Double := fin ((8106479329266893 * 2 ^ 1021 : Nat) : Int)

/-- Conversion `(double)` of the `float` (IEEE-754 binary32) whose bit pattern is `b`;
the conversion is exact. -/
def ofFloatBits (b : Nat) : Double :=
  let negative := decide (b / 2 ^ 31 % 2 = 1)
  let e := b / 2 ^ 23 % 256
  let m := b % 2 ^ 23
  if e = 255 then
    (if m = 0 then (if negative then ninf else pinf) else nan)
  else if e = 0 then pack negative (m * 2 ^ 925)
  else pack negative ((2 ^ 23 + m) * 2 ^ (e + 924))

end Double

/-! ## Plots (`Plot.hpp`, not part of the sources at hand) -/

/-- Modelled from the spec: the enumeration `Plot::Domain`; `other` stands for any value
that is neither `DIGITAL` nor `ANALOG`. -/
inductive Domain where
  | DIGITAL : Domain
  | ANALOG : Domain
  | other : Domain
deriving DecidableEq, Repr

/-- Modelled from the spec: the enumeration `Plot::TraceVarType`; `unknown` stands for any
value that is none of the seven the decoder names. -/
inductive TraceVarType where
  | U8 : TraceVarType
  | I8 : TraceVarType
  | U16 : TraceVarType
  | I16 : TraceVarType
  | U32 : TraceVarType
  | I32 : TraceVarType
  | F32 : TraceVarType
  | unknown : TraceVarType
deriving DecidableEq, Repr

/-- Modelled from the spec: the part of class `Plot` the handler uses.  A plot of the
handler owns one series (`points`) and one time series (`timePoints`), both bounded by
`maxPoints` with the oldest entry evicted first.  What the oldest-value query answers
while the time series holds nothing is given neither by the spec nor by the sources: it is
left open, plot by plot, as `oldestWhenEmpty`. -/
structure Plot where
  name : String
  visibility : Bool
  domain : Domain
  traceVarType : TraceVarType
  maxPoints : Nat
  points : List Double
  timePoints : List Double
  oldestWhenEmpty : Double
deriving DecidableEq, Repr

/-- Modelled from the spec: bounded append of a scrolling buffer; when the capacity is
exceeded the oldest entries leave first. -/
def bufferAppend (capacity : Nat) (buf : List Double) (x : Double) : List Double :=
  (buf ++ [x]).drop ((buf ++ [x]).length - capacity)

/-- Modelled from the spec: `Plot::addPoint` on the single series of the plot. -/
def Plot.addPoint (p : Plot) (x : Double) : Plot :=
  { p with points := bufferAppend p.maxPoints p.points x }

/-- Modelled from the spec: `Plot::addTimePoint`. -/
def Plot.addTimePoint (p : Plot) (t : Double) : Plot :=
  { p with timePoints := bufferAppend p.maxPoints p.timePoints t }

/-- Modelled from the spec: `getTimeSeries().getOldestValue()`, the oldest timestamp
still in the buffer; for a buffer that holds nothing, the answer the plot leaves open. -/
def Plot.getOldestValue (p : Plot) : Double :=
  p.timePoints.headD p.oldestWhenEmpty

/-! ## The sample decoder -/

/-- Object representation of a `uint32_t` on a little-endian host: its four bytes in
address order. -/
def objectBytes (value : Nat) : List Nat :=
  [value % 256, value / 256 % 256, value / 65536 % 256, value / 16777216 % 256]

/-- Unsigned integer read from the first `k` bytes of an object (little-endian). -/
def loadUnsigned (k : Nat) (bytes : List Nat) : Nat :=
  (bytes.take k).foldr (fun b acc => b + 256 * acc) 0

/-- Signed (two's complement) integer read from the first `k` bytes of an object. -/
def loadSigned (k : Nat) (bytes : List Nat) : Int :=
  let u := loadUnsigned k bytes
  if u < 2 ^ (8 * k - 1) then (u : Int) else (u : Int) - ((2 ^ (8 * k) : Nat) : Int)

/-- The function `TracePlotHandler::getDoubleValue`. -/
def getDoubleValue (plot : Plot) (value : Nat) : Double :=
  if plot.domain = Domain.DIGITAL then
    (if value = 0xaa then Double.one else Double.zero)
  else if plot.domain = Domain.ANALOG then
    match plot.traceVarType with
    | TraceVarType.U8 => Double.ofNat (loadUnsigned 1 (objectBytes value))
    | TraceVarType.I8 => Double.ofInt (loadSigned 1 (objectBytes value))
    | TraceVarType.U16 => Double.ofNat (loadUnsigned 2 (objectBytes value))
    | TraceVarType.I16 => Double.ofInt (loadSigned 2 (objectBytes value))
    | TraceVarType.U32 => Double.ofNat (loadUnsigned 4 (objectBytes value))
    | TraceVarType.I32 => Double.ofInt (loadSigned 4 (objectBytes value))
    | TraceVarType.F32 => Double.ofFloatBits (loadUnsigned 4 (objectBytes value))
    | TraceVarType.unknown => Double.ofNat (loadUnsigned 4 (objectBytes value))
  else Double.zero

/-! ## Settings, reader and handler state -/

/-- Modelled from the spec: `TracePlotHandler::Settings`, declared in the header: core
clock frequency, trace prescaler and maximum point count (unsigned 32-bit), trigger
channel (`int32_t`, negative for none) and trigger level (`double`). -/
structure Settings where
  coreFrequency : Nat
  tracePrescaler : Nat
  maxPoints : Nat
  triggerChannel : Int
  triggerLevel : Double
deriving DecidableEq, Repr

/-- The enumeration `state` of the viewer. -/
inductive state where
  | STOP : state
  | RUN : state
deriving DecidableEq, Repr

/-- One call made to the `TraceReader`. -/
inductive ReaderCall where
  | isValid : ReaderCall
  | readTrace : ReaderCall
  | getTraceIndicators : ReaderCall
  | startAcqusition (activeChannels : List Bool) : ReaderCall
  | stopAcqusition : ReaderCall
  | setCoreClockFrequency (hz : Nat) : ReaderCall
  | setTraceFrequency (hz : Nat) : ReaderCall
deriving DecidableEq, Repr

/-- What `readTrace` hands over: the timestamp delta and the array `traces`
(`std::array<uint32_t, 10>`, zero-initialised before the call). -/
structure Frame where
  timestamp : Double
  traces : List Nat
deriving DecidableEq, Repr

/-- What the reader answers during one iteration of the loop: `isValid()`, `readTrace`
(`none` when it returns false), `errorFramesTotal` of the two `getTraceIndicators()`
calls of a frame, and the result of `startAcqusition`. -/
structure ReaderAnswers where
  isValid : Bool
  readTrace : Option Frame
  errorFramesTotalAtCheck : Nat
  errorFramesTotalAtStore : Nat
  startAcqusition : Bool
deriving DecidableEq, Repr

/-- The member variables of `TracePlotHandler` the loop works on, the local `cnt` of
`dataHandler` (it lives across iterations) and the calls made to the reader so far.
`plotsMap` lists the plots in the iteration order of the map. -/
structure Handler where
  plotsMap : List Plot
  traceSettings : Settings
  viewerState : state
  stateChangeOrdered : Bool
  traceTriggered : Bool
  cnt : Nat
  time : Double
  errorFrameTimestamps : List Double
  errorFrameSinceLastPoint : Nat
  calls : List ReaderCall
deriving DecidableEq, Repr

/-- The conversion `static_cast<uint32_t>` of a signed integer. -/
def castU32 (z : Int) : Nat := (z % 4294967296).toNat

/-- The read `traces[i]`: the array has ten elements. -/
def readTraces (traces : List Nat) (i : Nat) : Option Nat :=
  if i < 10 then some (traces.getD i 0 % 4294967296) else none

/-! ## Processing one frame -/

/-- Variables the `for` loop over `plotsMap` reads and writes besides the plot itself. -/
structure LoopVars where
  i : Nat
  timestamp : Double
  traceTriggered : Bool
  cnt : Nat
deriving DecidableEq, Repr

/-- Body of the `for` loop over `plotsMap` (source lines 137-158) for one plot; `time` is
the running time after this frame was added. -/
def channelStep (settings : Settings) (traces : List Nat) (time : Double) (plot : Plot)
    (v : LoopVars) : Option (Plot × LoopVars) :=
  if !plot.visibility then
    some (plot, { v with i := (v.i + 1) % 4294967296 })
  else
    match readTraces traces v.i with
    | none => none
    | some raw =>
      let newPoint := getDoubleValue plot raw
      let v1 :=
        if v.traceTriggered = false ∧ v.i = castU32 settings.triggerChannel
            ∧ Double.gt newPoint settings.triggerLevel = true then
          { v with traceTriggered := true, timestamp := Double.zero, cnt := 0 }
        else v
      some ((plot.addPoint newPoint).addTimePoint time,
        { v1 with i := (v1.i + 1) % 4294967296 })

/-- The `for` loop over `plotsMap` (source lines 135-159). -/
def channelLoop (settings : Settings) (traces : List Nat) (time : Double) :
    List Plot → LoopVars → Option (List Plot × LoopVars)
  | [], v => some ([], v)
  | plot :: rest, v =>
    match channelStep settings traces time plot v with
    | none => none
    | some (plot1, v1) =>
      match channelLoop settings traces time rest v1 with
      | none => none
      | some (rest1, v2) => some (plot1 :: rest1, v2)

/-- The loop variables when the `for` loop of a frame starts: `i = 0`, the timestamp
delta just read, and the trigger status as the previous frame left it. -/
def loopStart (h : Handler) (f : Frame) : LoopVars :=
  { i := 0, timestamp := f.timestamp, traceTriggered := h.traceTriggered, cnt := h.cnt }

/-- The condition of source line 160, `traceTriggered && cnt++ >= (maxPoints * 0.9)`,
without the increment: both sides are compared as `double`. -/
def budgetSpent (settings : Settings) (traceTriggered : Bool) (cnt : Nat) : Bool :=
  traceTriggered &&
    Double.ge (Double.ofNat cnt)
      (Double.mul (Double.ofNat settings.maxPoints) Double.ninetenths)

/-- Source lines 121-165: what the loop does with a frame it has read.  `none` stands for
undefined behaviour: `plotsMap.begin()` of an empty map, or a read beyond `traces`. -/
def processFrame (h : Handler) (f : Frame) (r : ReaderAnswers) : Option Handler :=
  match h.plotsMap with
  | [] => none
  | first :: _ =>
    let time := Double.add h.time f.timestamp
    let oldestTimestamp := first.getOldestValue
    let pushed :=
      if h.errorFrameSinceLastPoint ≠ r.errorFramesTotalAtCheck then
        h.errorFrameTimestamps ++ [time]
      else h.errorFrameTimestamps
    let pruned := pushed.dropWhile (fun t => Double.lt t oldestTimestamp)
    match channelLoop h.traceSettings f.traces time h.plotsMap (loopStart h f) with
    | none => none
    | some (plots, v) =>
      let spent := budgetSpent h.traceSettings v.traceTriggered v.cnt
      some
        { h with
          plotsMap := plots
          time := time
          errorFrameTimestamps := pruned
          errorFrameSinceLastPoint := r.errorFramesTotalAtStore
          traceTriggered := v.traceTriggered
          cnt := if v.traceTriggered then (v.cnt + 1) % 4294967296 else v.cnt
          viewerState := if spent then state.STOP else h.viewerState
          stateChangeOrdered := if spent then true else h.stateChangeOrdered
          calls := h.calls ++ [ReaderCall.getTraceIndicators, ReaderCall.getTraceIndicators] }

/-! ## The deferred commit and the loop -/

/-- The loop filling `std::array<bool, 32> activeChannels` (source lines 176-178); `none`
for a write beyond the array. -/
def fillActiveChannels : List Plot → Nat → List Bool → Option (List Bool)
  | [], _, activeChannels => some activeChannels
  | plot :: rest, i, activeChannels =>
    if i < 32 then
      fillActiveChannels rest ((i + 1) % 4294967296) (activeChannels.set i plot.visibility)
    else none

/-- Source lines 170-194: the commit of an ordered state change. -/
def commit (h : Handler) (r : ReaderAnswers) : Option Handler :=
  if h.stateChangeOrdered then
    if h.viewerState = state.RUN then
      match fillActiveChannels h.plotsMap 0 (List.replicate 32 false) with
      | none => none
      | some activeChannels =>
        let h1 :=
          { h with
            errorFrameTimestamps := []
            errorFrameSinceLastPoint := 0
            calls := h.calls ++ [ReaderCall.startAcqusition activeChannels] }
        let h2 :=
          if r.startAcqusition then { h1 with time := Double.zero }
          else { h1 with viewerState := state.STOP }
        some { h2 with stateChangeOrdered := false }
    else
      some
        { h with
          calls := h.calls ++ [ReaderCall.stopAcqusition]
          traceTriggered := false
          stateChangeOrdered := false }
  else some h

/-- One iteration of the `while (!done)` loop of `dataHandler` (source lines 107-194). -/
def iteration (h : Handler) (r : ReaderAnswers) : Option Handler :=
  if h.viewerState = state.RUN then
    let h1 := { h with calls := h.calls ++ [ReaderCall.isValid] }
    let h2 :=
      if !r.isValid then { h1 with viewerState := state.STOP, stateChangeOrdered := true }
      else h1
    let h3 := { h2 with calls := h2.calls ++ [ReaderCall.readTrace] }
    match r.readTrace with
    | none => some h3
    | some f =>
      match processFrame h3 f r with
      | none => none
      | some h4 => commit h4 r
  else commit h r

/-- The function `dataHandler`: the iterations made until `done`, one reader answer each. -/
def dataHandler : Handler → List ReaderAnswers → Option Handler
  | h, [] => some h
  | h, r :: rest =>
    match iteration h r with
    | none => none
    | some h1 => dataHandler h1 rest

/-- Frames of one RUN session processed one after the other, no state change being ordered
in between. -/
def processFrames : Handler → List (Frame × ReaderAnswers) → Option Handler
  | h, [] => some h
  | h, fr :: rest =>
    match processFrame h fr.1 fr.2 with
    | none => none
    | some h1 => processFrames h1 rest

/-! ## Definitions used to state the properties -/

/-- The two's-complement value of the low `bits` bits of the word `w`. -/
def signedLow (bits : Nat) (w : Nat) : Int :=
  if w % 2 ^ bits < 2 ^ (bits - 1) then ((w % 2 ^ bits : Nat) : Int)
  else ((w % 2 ^ bits : Nat) : Int) - ((2 ^ bits : Nat) : Int)

/-- A plot as `initPlots` creates it (DIGITAL, no points yet), with the given name and
visibility.  The sample plots answer `0.0` for an empty buffer; in the sample runs the
error window is empty whenever the buffer of the first plot is. -/
def digitalPlot (name : String) (visibility : Bool) : Plot :=
  { name := name, visibility := visibility, domain := Domain.DIGITAL,
    traceVarType := TraceVarType.U32, maxPoints := 100, points := [], timePoints := [],
    oldestWhenEmpty := Double.zero }

/-- An ANALOG plot of the given declared type. -/
def analogPlot (name : String) (t : TraceVarType) : Plot :=
  { name := name, visibility := true, domain := Domain.ANALOG,
    traceVarType := t, maxPoints := 100, points := [], timePoints := [],
    oldestWhenEmpty := Double.zero }

/-- Visibility, domain and declared type of a plot: what frame processing never changes. -/
def Plot.channelConfig (p : Plot) : Bool × Domain × TraceVarType :=
  (p.visibility, p.domain, p.traceVarType)

/-- The trigger level `0.5`. -/
def half : Double := Double.fin ((2 ^ 1073 : Nat) : Int)

/-- Settings with the given trigger channel, 100 points at most and trigger level `0.5`. -/
def sampleSettings (triggerChannel : Int) : Settings :=
  { coreFrequency := 160000, tracePrescaler := 10, maxPoints := 100,
    triggerChannel := triggerChannel, triggerLevel := half }

/-- A handler in RUN, untriggered, five time units into the capture, with three DIGITAL
plots of which the second is hidden. -/
def sampleHandler (triggerChannel : Int) : Handler :=
  { plotsMap := [digitalPlot "CH0" true, digitalPlot "CH1" false, digitalPlot "CH10" true],
    traceSettings := sampleSettings triggerChannel,
    viewerState := state.RUN, stateChangeOrdered := false,
    traceTriggered := false, cnt := 0, time := Double.ofNat 5,
    errorFrameTimestamps := [], errorFrameSinceLastPoint := 0, calls := [] }

/-- A frame one time unit after the previous one, with `w` as the raw word of slot 0. -/
def sampleFrame (w : Nat) : Frame :=
  { timestamp := Double.one, traces := [w, 0, 0, 0, 0, 0, 0, 0, 0, 0] }

/-- Reader answers of an iteration in which `sampleFrame w` is available. -/
def sampleAnswers (isValid : Bool) (w : Nat) (startOk : Bool) : ReaderAnswers :=
  { isValid := isValid, readTrace := some (sampleFrame w), errorFramesTotalAtCheck := 0,
    errorFramesTotalAtStore := 0, startAcqusition := startOk }

/-- A session of four frames in which slot 0 carries the sentinel on the third. -/
def sampleSession : List (Frame × ReaderAnswers) :=
  [(sampleFrame 0, sampleAnswers true 0 true), (sampleFrame 1, sampleAnswers true 1 true),
   (sampleFrame 0xAA, sampleAnswers true 0xAA true), (sampleFrame 0, sampleAnswers true 0 true)]

/-- The handler after the first `n` frames of `sampleSession`. -/
def sampleSessionAfter (n : Nat) : Handler :=
  (processFrames (sampleHandler 0) (sampleSession.take n)).getD (sampleHandler 0)

/-- The handler after the frame on which the trigger of `sampleHandler 0` fires. -/
def sampleFired : Handler :=
  (processFrame (sampleHandler 0) (sampleFrame 0xAA) (sampleAnswers true 0xAA true)).getD
    (sampleHandler 0)

/-- The handler `n` frames after the frame on which the trigger fired. -/
def samplePostTrigger (n : Nat) : Handler :=
  (processFrames sampleFired (List.replicate n (sampleFrame 0, sampleAnswers true 0 true))).getD
    sampleFired

/-- A handler in RUN with a state change ordered, left triggered with `cnt = 91` by the
session before. -/
def samplePending : Handler :=
  { sampleHandler 0 with stateChangeOrdered := true, traceTriggered := true, cnt := 91 }

/-- The handler once an invalid reader has been noticed and `readTrace` has been called. -/
def stopRequested (h : Handler) : Handler :=
  { h with
    viewerState := state.STOP
    stateChangeOrdered := true
    calls := h.calls ++ [ReaderCall.isValid, ReaderCall.readTrace] }

/-- The handler after the commit of `samplePending` with a successful start. -/
def sampleCommitted : Handler :=
  (commit samplePending (sampleAnswers true 0 true)).getD samplePending

/-- The handler after the frames of `sampleSession` with no trigger channel configured. -/
def sampleFreeRun : Handler :=
  (processFrames (sampleHandler (-1)) sampleSession).getD (sampleHandler (-1))

/-- The handler after an iteration in RUN with the reader invalid and a frame available. -/
def sampleAfterInvalid : Handler :=
  (iteration (sampleHandler 0) (sampleAnswers false 0 true)).getD (sampleHandler 0)

/-- Modelled from the spec: `PlotHandlerBase::setMaxPoints`, which propagates the maximum
point count to the buffers of every plot. -/
def setMaxPoints (plotsMap : List Plot) (maxPoints : Nat) : List Plot :=
  plotsMap.map (fun p => { p with maxPoints := maxPoints })

/-- The function `TracePlotHandler::getSettings`. -/
def getSettings (h : Handler) : Settings := h.traceSettings

/-- The function `TracePlotHandler::setSettings`. -/
def setSettings (h : Handler) (settings : Settings) : Handler :=
  { h with
    calls := h.calls ++ [ReaderCall.setCoreClockFrequency settings.coreFrequency,
      ReaderCall.setTraceFrequency settings.tracePrescaler]
    plotsMap := setMaxPoints h.plotsMap settings.maxPoints
    traceSettings := settings }

/-- The function `TracePlotHandler::setTriggerChannel`. -/
def setTriggerChannel (h : Handler) (triggerChannel : Int) : Handler :=
  { h with traceSettings := { h.traceSettings with triggerChannel := triggerChannel } }

/-- The function `TracePlotHandler::getTriggerChannel`. -/
def getTriggerChannel (h : Handler) : Int := h.traceSettings.triggerChannel

/-- The handler when `readTrace` has been called in an iteration that starts in RUN: an
invalid reader has made it request STOP. -/
def polled (h : Handler) (isValid : Bool) : Handler :=
  if isValid then { h with calls := h.calls ++ [ReaderCall.isValid, ReaderCall.readTrace] }
  else stopRequested h

/-- A handler in RUN with a state change ordered, five time units into the capture. -/
def sampleOrdered : Handler :=
  { sampleHandler 0 with stateChangeOrdered := true }

/-- The magnitude `m` (in units of `2^-1074`) rounded to 53 significant bits, as `round`
does it. -/
def Double.roundMagnitude (m : Nat) : Nat :=
  Double.rne m (Double.ilog2 m - 52) * 2 ^ (Double.ilog2 m - 52)

/-- A value an elapsed time can take: `+inf`, or a finite double that is not negative (a
non-negative number that rounding leaves as it is). -/
def Double.isTime : Double → Bool
  | Double.fin n => decide (0 ≤ n) && decide (Double.round n = Double.fin n)
  | Double.pinf => true
  | _ => false

/-- Timestamps in non-decreasing order. -/
def nonDecreasing (l : List Double) : Prop :=
  l.Pairwise (fun a b => Double.ge b a = true)

/-- The test `std::isnan`. -/
def Double.isNaN : Double → Bool
  | Double.nan => true
  | _ => false

/-- The timestamps resident in the buffers of all the plots. -/
def residentTimestamps (plots : List Plot) : List Double :=
  (plots.map Plot.timePoints).flatten

/-- What holds of the buffers during a RUN session: the elapsed time is a time value, and
every buffer holds its timestamps in non-decreasing order, none above the elapsed time. -/
def sessionOrdered (h : Handler) : Prop :=
  Double.isTime h.time = true ∧
  ∀ p ∈ h.plotsMap, nonDecreasing p.timePoints ∧ ∀ t ∈ p.timePoints, Double.ge h.time t = true

/-- Modelled from the spec: the transition request of the configurator, which sets the
viewer state and the state-change-ordered flag. -/
def orderState (s : state) (h : Handler) : Handler :=
  { h with viewerState := s, stateChangeOrdered := true }

/-- An execution of the loop across a restart: two frames in RUN, a STOP ordered and
committed, a RUN ordered, two more frames; every timestamp delta is `1.0`. -/
def sampleRestart : Option Handler :=
  ((dataHandler (sampleHandler 0) [sampleAnswers true 0 true, sampleAnswers true 0 true]).bind
    (fun h => dataHandler (orderState state.STOP h) [sampleAnswers true 0 true])).bind
    (fun h => dataHandler (orderState state.RUN h)
      [sampleAnswers true 0 true, sampleAnswers true 0 true])

/-- Reader answers of an iteration in which `sampleFrame 0` is available and the reader
has counted `n` error frames. -/
def errorAnswers (n : Nat) : ReaderAnswers :=
  { sampleAnswers true 0 true with errorFramesTotalAtCheck := n, errorFramesTotalAtStore := n }

/-- A handler five time units into a capture, with one visible plot two points deep that
holds the timestamps `4.0` and `5.0`, and the given error window. -/
def sampleWindow (window : List Double) : Handler :=
  { sampleHandler (-1) with
    plotsMap := [{ digitalPlot "CH0" true with
      maxPoints := 2, points := [Double.zero, Double.zero],
      timePoints := [Double.ofNat 4, Double.ofNat 5] }]
    errorFrameTimestamps := window }

/-- The handler after one frame, or the handler itself if the frame is not processed to
the end. -/
def afterFrame (h : Handler) (f : Frame) (r : ReaderAnswers) : Handler :=
  (processFrame h f r).getD h

/-- A frame one time unit after the previous one with the sentinel in slot 1. -/
def sentinelInSlotOne : Frame :=
  { timestamp := Double.one, traces := [0, 0xAA, 0, 0, 0, 0, 0, 0, 0, 0] }

set_option exponentiation.threshold 2000 in
theorem Double.scale_pos : 0 < Double.scale := Nat.two_pow_pos 1074

theorem Double.ofInt_inj (a b : Int) : Double.ofInt a = Double.ofInt b ↔ a = b := by
  have hs : (Double.scale : Int) ≠ 0 := by
    have := Double.scale_pos
    omega
  unfold Double.ofInt
  constructor
  · intro h
    injection h with h
    exact mul_right_cancel₀ hs h
  · intro h
    rw [h]

theorem loadUnsigned_one (w : Nat) : loadUnsigned 1 (objectBytes w) = w % 2 ^ 8 := by
  simp [loadUnsigned, objectBytes]

theorem loadUnsigned_two (w : Nat) : loadUnsigned 2 (objectBytes w) = w % 2 ^ 16 := by
  simp [loadUnsigned, objectBytes]
  omega

theorem loadUnsigned_four (w : Nat) (hw : w < 2 ^ 32) :
    loadUnsigned 4 (objectBytes w) = w := by
  simp [loadUnsigned, objectBytes]
  omega

/-- C1: on a DIGITAL plot, whatever its declared type, `getDoubleValue` returns `1.0`
exactly when the raw word is `0xAA` (the whole word is compared) and `0.0` for every other
word. -/
theorem C1_digital_sentinel (plot : Plot) (w : Nat) (hd : plot.domain = Domain.DIGITAL) :
    (getDoubleValue plot w = Double.one ↔ w = 0xAA) ∧
    (w ≠ 0xAA → getDoubleValue plot w = Double.zero) := by
  have h01 : Double.zero ≠ Double.one := by
    unfold Double.zero Double.one
    rw [Ne, Double.ofInt_inj]
    decide
  unfold getDoubleValue
  rw [if_pos hd]
  by_cases hw : w = 0xaa
  · simp [hw]
  · simp [hw, h01]

/-- Witness of C1: the word `0x1AA`, whose low byte is the sentinel, on a DIGITAL plot. -/
theorem C1_digital_sentinel_witness :
    (digitalPlot "CH0" true).domain = Domain.DIGITAL ∧
    ((getDoubleValue (digitalPlot "CH0" true) 0x1AA = Double.one ↔ (0x1AA : Nat) = 0xAA) ∧
      ((0x1AA : Nat) ≠ 0xAA → getDoubleValue (digitalPlot "CH0" true) 0x1AA = Double.zero)) :=
  ⟨rfl, C1_digital_sentinel (digitalPlot "CH0" true) 0x1AA rfl⟩

/-- C2: on an ANALOG plot `getDoubleValue` reads exactly the declared width from the
low-order bytes of the 32-bit word `w`: `U8`, `U16`, `U32` give `w mod 2^8`, `w mod 2^16`,
`w`; `I8`, `I16`, `I32` give the two's-complement value of the low 8, 16, 32 bits; an
unknown type gives what `U32` gives; and `0xFFFFFFFF` is `255.0` as `U8`, `-1.0` as `I8`. -/
theorem C2_analog_reinterpret (plot : Plot) (w : Nat) (ha : plot.domain = Domain.ANALOG)
    (hw : w < 2 ^ 32) :
    (plot.traceVarType = TraceVarType.U8 →
      getDoubleValue plot w = Double.ofNat (w % 2 ^ 8)) ∧
    (plot.traceVarType = TraceVarType.U16 →
      getDoubleValue plot w = Double.ofNat (w % 2 ^ 16)) ∧
    (plot.traceVarType = TraceVarType.U32 → getDoubleValue plot w = Double.ofNat w) ∧
    (plot.traceVarType = TraceVarType.I8 →
      getDoubleValue plot w = Double.ofInt (signedLow 8 w)) ∧
    (plot.traceVarType = TraceVarType.I16 →
      getDoubleValue plot w = Double.ofInt (signedLow 16 w)) ∧
    (plot.traceVarType = TraceVarType.I32 →
      getDoubleValue plot w = Double.ofInt (signedLow 32 w)) ∧
    (plot.traceVarType = TraceVarType.unknown →
      getDoubleValue plot w
        = getDoubleValue { plot with traceVarType := TraceVarType.U32 } w) ∧
    (w = 0xFFFFFFFF →
      (plot.traceVarType = TraceVarType.U8 → getDoubleValue plot w = Double.ofInt 255) ∧
      (plot.traceVarType = TraceVarType.I8 → getDoubleValue plot w = Double.ofInt (-1))) := by
  have hne : plot.domain ≠ Domain.DIGITAL := by rw [ha]; decide
  have h4 : w % 2 ^ 32 = w := Nat.mod_eq_of_lt hw
  refine ⟨?_, ?_, ?_, ?_, ?_, ?_, ?_, ?_⟩
  · intro ht
    simp only [getDoubleValue, if_neg hne, if_pos ha, ht, loadUnsigned_one]
  · intro ht
    simp only [getDoubleValue, if_neg hne, if_pos ha, ht, loadUnsigned_two]
  · intro ht
    simp only [getDoubleValue, if_neg hne, if_pos ha, ht, loadUnsigned_four w hw]
  · intro ht
    simp only [getDoubleValue, if_neg hne, if_pos ha, ht, loadSigned, loadUnsigned_one,
      signedLow]
  · intro ht
    simp only [getDoubleValue, if_neg hne, if_pos ha, ht, loadSigned, loadUnsigned_two,
      signedLow]
  · intro ht
    simp only [getDoubleValue, if_neg hne, if_pos ha, ht, loadSigned, loadUnsigned_four w hw,
      signedLow, h4]
  · intro ht
    simp only [getDoubleValue, if_neg hne, if_pos ha, ht]
  · intro hv
    subst hv
    constructor
    · intro ht
      simp only [getDoubleValue, if_neg hne, if_pos ha, ht, loadUnsigned_one]
      rfl
    · intro ht
      simp only [getDoubleValue, if_neg hne, if_pos ha, ht, loadSigned, loadUnsigned_one]
      rfl

/-- Witness of C2: the word `0xFFFFFFFF` on an ANALOG plot declared `I8`. -/
theorem C2_analog_reinterpret_witness :
    (analogPlot "CH0" TraceVarType.I8).domain = Domain.ANALOG ∧ (0xFFFFFFFF : Nat) < 2 ^ 32 ∧
    getDoubleValue (analogPlot "CH0" TraceVarType.I8) 0xFFFFFFFF = Double.ofInt (-1) :=
  ⟨rfl, by decide,
    ((C2_analog_reinterpret (analogPlot "CH0" TraceVarType.I8) 0xFFFFFFFF rfl
      (by decide)).2.2.2.2.2.2.2 rfl).2 rfl⟩

/-! ## The loop over the plots and the processing of a frame -/

theorem getDoubleValue_congr (p q : Plot) (w : Nat) (h : p.channelConfig = q.channelConfig) :
    getDoubleValue p w = getDoubleValue q w := by
  simp only [Plot.channelConfig, Prod.mk.injEq] at h
  unfold getDoubleValue
  rw [h.2.1, h.2.2]

/-- What `channelStep` returns, case by case. -/
theorem channelStep_eq_some (S : Settings) (traces : List Nat) (time : Double) (plot plot1 : Plot)
    (v v1 : LoopVars) (hs : channelStep S traces time plot v = some (plot1, v1)) :
    (plot.visibility = false ∧ plot1 = plot ∧ v1 = { v with i := (v.i + 1) % 4294967296 }) ∨
    (plot.visibility = true ∧ ∃ raw, readTraces traces v.i = some raw ∧
      plot1 = (plot.addPoint (getDoubleValue plot raw)).addTimePoint time ∧
      ((v.traceTriggered = false ∧ v.i = castU32 S.triggerChannel ∧
          Double.gt (getDoubleValue plot raw) S.triggerLevel = true ∧
          v1 = { i := (v.i + 1) % 4294967296, timestamp := Double.zero,
                 traceTriggered := true, cnt := 0 }) ∨
       (¬ (v.traceTriggered = false ∧ v.i = castU32 S.triggerChannel ∧
          Double.gt (getDoubleValue plot raw) S.triggerLevel = true) ∧
          v1 = { v with i := (v.i + 1) % 4294967296 }))) := by
  unfold channelStep at hs
  cases hv : plot.visibility with
  | false =>
    left
    simp [hv] at hs
    exact ⟨rfl, hs.1.symm, hs.2.symm⟩
  | true =>
    right
    simp only [hv, Bool.not_true, Bool.false_eq_true, if_false] at hs
    cases hr : readTraces traces v.i with
    | none => simp [hr] at hs
    | some raw =>
      simp only [hr, Option.some.injEq, Prod.mk.injEq] at hs
      refine ⟨rfl, raw, rfl, hs.1.symm, ?_⟩
      by_cases hf : v.traceTriggered = false ∧ v.i = castU32 S.triggerChannel ∧
          Double.gt (getDoubleValue plot raw) S.triggerLevel = true
      · left
        rw [if_pos hf] at hs
        exact ⟨hf.1, hf.2.1, hf.2.2, hs.2.symm⟩
      · right
        rw [if_neg hf] at hs
        exact ⟨hf, hs.2.symm⟩

theorem channelLoop_cons_eq_some (S : Settings) (traces : List Nat) (time : Double)
    (plot : Plot) (rest plots1 : List Plot) (v v2 : LoopVars)
    (hl : channelLoop S traces time (plot :: rest) v = some (plots1, v2)) :
    ∃ plot1 v1 rest1, channelStep S traces time plot v = some (plot1, v1) ∧
      channelLoop S traces time rest v1 = some (rest1, v2) ∧ plots1 = plot1 :: rest1 := by
  unfold channelLoop at hl
  cases hs : channelStep S traces time plot v with
  | none => simp [hs] at hl
  | some pv =>
    obtain ⟨plot1, v1⟩ := pv
    simp only [hs] at hl
    cases hr : channelLoop S traces time rest v1 with
    | none => simp [hr] at hl
    | some rv =>
      obtain ⟨rest1, v3⟩ := rv
      simp only [hr, Option.some.injEq, Prod.mk.injEq] at hl
      exact ⟨plot1, v1, rest1, rfl, by rw [hr, hl.2], hl.1.symm⟩

/-- Once triggered, the loop over the plots leaves `traceTriggered` and `cnt` alone. -/
theorem channelLoop_keeps_triggered (S : Settings) (traces : List Nat) (time : Double) :
    ∀ (plots plots1 : List Plot) (v v1 : LoopVars),
      channelLoop S traces time plots v = some (plots1, v1) → v.traceTriggered = true →
      v1.traceTriggered = true ∧ v1.cnt = v.cnt := by
  intro plots
  induction plots with
  | nil =>
    intro plots1 v v1 hl ht
    simp only [channelLoop, Option.some.injEq, Prod.mk.injEq] at hl
    rw [← hl.2]
    exact ⟨ht, rfl⟩
  | cons plot rest ih =>
    intro plots1 v v2 hl ht
    obtain ⟨plot1, v1, rest1, hs, hr, _⟩ := channelLoop_cons_eq_some S traces time _ _ _ _ _ hl
    have h1 : v1.traceTriggered = true ∧ v1.cnt = v.cnt := by
      rcases channelStep_eq_some S traces time _ _ _ _ hs with ⟨_, _, hv⟩ | ⟨_, raw, _, _, hv⟩
      · rw [hv]; exact ⟨ht, rfl⟩
      · rcases hv with ⟨hf, _⟩ | ⟨_, hv⟩
        · rw [ht] at hf; exact absurd hf (by decide)
        · rw [hv]; exact ⟨ht, rfl⟩
    have h2 := ih rest1 v1 v2 hr h1.1
    exact ⟨h2.1, h2.2.trans h1.2⟩

/-- A trigger channel index whose unsigned conversion is no index of `traces` never fires. -/
theorem channelLoop_never_fires (S : Settings) (traces : List Nat) (time : Double)
    (hc : 10 ≤ castU32 S.triggerChannel) :
    ∀ (plots plots1 : List Plot) (v v1 : LoopVars),
      channelLoop S traces time plots v = some (plots1, v1) → v.traceTriggered = false →
      v1.traceTriggered = false ∧ v1.cnt = v.cnt := by
  intro plots
  induction plots with
  | nil =>
    intro plots1 v v1 hl ht
    simp only [channelLoop, Option.some.injEq, Prod.mk.injEq] at hl
    rw [← hl.2]
    exact ⟨ht, rfl⟩
  | cons plot rest ih =>
    intro plots1 v v2 hl ht
    obtain ⟨plot1, v1, rest1, hs, hr, _⟩ := channelLoop_cons_eq_some S traces time _ _ _ _ _ hl
    have h1 : v1.traceTriggered = false ∧ v1.cnt = v.cnt := by
      rcases channelStep_eq_some S traces time _ _ _ _ hs with ⟨_, _, hv⟩ | ⟨_, raw, hraw, _, hv⟩
      · rw [hv]; exact ⟨ht, rfl⟩
      · rcases hv with ⟨_, hi, _, _⟩ | ⟨_, hv⟩
        · exfalso
          unfold readTraces at hraw
          split at hraw
          · omega
          · exact absurd hraw (by simp)
        · rw [hv]; exact ⟨ht, rfl⟩
    have h2 := ih rest1 v1 v2 hr h1.1
    exact ⟨h2.1, h2.2.trans h1.2⟩

/-- The loop over the plots changes no visibility, domain or declared type. -/
theorem channelLoop_config (S : Settings) (traces : List Nat) (time : Double) :
    ∀ (plots plots1 : List Plot) (v v1 : LoopVars),
      channelLoop S traces time plots v = some (plots1, v1) →
      plots1.map Plot.channelConfig = plots.map Plot.channelConfig := by
  intro plots
  induction plots with
  | nil =>
    intro plots1 v v1 hl
    simp only [channelLoop, Option.some.injEq, Prod.mk.injEq] at hl
    rw [← hl.1]
  | cons plot rest ih =>
    intro plots1 v v2 hl
    obtain ⟨plot1, v1, rest1, hs, hr, hp⟩ := channelLoop_cons_eq_some S traces time _ _ _ _ _ hl
    have h1 : plot1.channelConfig = plot.channelConfig := by
      rcases channelStep_eq_some S traces time _ _ _ _ hs with ⟨_, hp1, _⟩ | ⟨_, raw, _, hp1, _⟩
      · rw [hp1]
      · rw [hp1]; rfl
    rw [hp, List.map_cons, List.map_cons, h1, ih rest1 v1 v2 hr]

/-- Starting untriggered, the loop over the plots ends triggered exactly when some visible
plot whose cursor is the configured trigger channel decodes to a value above the level. -/
theorem channelLoop_fires_iff (S : Settings) (traces : List Nat) (time : Double) :
    ∀ (plots plots1 : List Plot) (v v1 : LoopVars),
      channelLoop S traces time plots v = some (plots1, v1) → v.traceTriggered = false →
      v.i + plots.length < 4294967296 →
      ((v1.traceTriggered = true ↔
        ∃ j p w, plots[j]? = some p ∧ v.i + j = castU32 S.triggerChannel ∧
          p.visibility = true ∧ readTraces traces (v.i + j) = some w ∧
          Double.gt (getDoubleValue p w) S.triggerLevel = true) ∧
       (v1.traceTriggered = true → v1.cnt = 0) ∧
       (v1.traceTriggered = false → v1.cnt = v.cnt)) := by
  intro plots
  induction plots with
  | nil =>
    intro plots1 v v1 hl ht _
    simp only [channelLoop, Option.some.injEq, Prod.mk.injEq] at hl
    rw [← hl.2]
    simp [ht]
  | cons plot rest ih =>
    intro plots1 v v2 hl ht hlen
    obtain ⟨plot1, v1, rest1, hs, hr, _⟩ := channelLoop_cons_eq_some S traces time _ _ _ _ _ hl
    simp only [List.length_cons] at hlen
    have hmod : (v.i + 1) % 4294967296 = v.i + 1 := Nat.mod_eq_of_lt (by omega)
    -- the fired case
    have hfired : ∀ raw, plot.visibility = true → readTraces traces v.i = some raw →
        v.i = castU32 S.triggerChannel →
        Double.gt (getDoubleValue plot raw) S.triggerLevel = true →
        v1.traceTriggered = true → v1.cnt = 0 →
        ((v2.traceTriggered = true ↔
          ∃ j p w, (plot :: rest)[j]? = some p ∧ v.i + j = castU32 S.triggerChannel ∧
            p.visibility = true ∧ readTraces traces (v.i + j) = some w ∧
            Double.gt (getDoubleValue p w) S.triggerLevel = true) ∧
         (v2.traceTriggered = true → v2.cnt = 0) ∧
         (v2.traceTriggered = false → v2.cnt = v.cnt)) := by
      intro raw hvis hraw hi hgt h1t h1c
      have h2 := channelLoop_keeps_triggered S traces time rest rest1 v1 v2 hr h1t
      refine ⟨⟨fun _ => ⟨0, plot, raw, by simp, hi, hvis, hraw, hgt⟩, fun _ => h2.1⟩,
        fun _ => h2.2.trans h1c, fun hf => ?_⟩
      rw [h2.1] at hf
      exact absurd hf (by decide)
    -- the case in which this plot does not fire
    have hquiet : v1 = { v with i := (v.i + 1) % 4294967296 } →
        (∀ raw, plot.visibility = true → readTraces traces v.i = some raw →
          ¬ (v.i = castU32 S.triggerChannel ∧
            Double.gt (getDoubleValue plot raw) S.triggerLevel = true)) →
        ((v2.traceTriggered = true ↔
          ∃ j p w, (plot :: rest)[j]? = some p ∧ v.i + j = castU32 S.triggerChannel ∧
            p.visibility = true ∧ readTraces traces (v.i + j) = some w ∧
            Double.gt (getDoubleValue p w) S.triggerLevel = true) ∧
         (v2.traceTriggered = true → v2.cnt = 0) ∧
         (v2.traceTriggered = false → v2.cnt = v.cnt)) := by
      intro hv1 hno
      have h1t : v1.traceTriggered = false := by rw [hv1]; exact ht
      have h1i : v1.i = v.i + 1 := by rw [hv1]; exact hmod
      have h1c : v1.cnt = v.cnt := by rw [hv1]
      have h2 := ih rest1 v1 v2 hr h1t (by omega)
      refine ⟨?_, h2.2.1, fun hf => (h2.2.2 hf).trans h1c⟩
      rw [h2.1]
      constructor
      · rintro ⟨j, p, w, hj, hi, hvis, hraw, hgt⟩
        refine ⟨j + 1, p, w, by simpa using hj, by omega, hvis, ?_, hgt⟩
        rw [← hraw]; congr 1; omega
      · rintro ⟨j, p, w, hj, hi, hvis, hraw, hgt⟩
        cases j with
        | zero =>
          simp only [List.getElem?_cons_zero, Option.some.injEq] at hj
          subst hj
          exact absurd ⟨hi, hgt⟩ (hno w hvis hraw)
        | succ j =>
          refine ⟨j, p, w, by simpa using hj, by omega, hvis, ?_, hgt⟩
          rw [← hraw]; congr 1; omega
    rcases channelStep_eq_some S traces time _ _ _ _ hs with ⟨hvis, _, hv⟩ | ⟨hvis, raw, hraw, _, hv⟩
    · exact hquiet hv (fun raw hvis2 => by rw [hvis] at hvis2; exact absurd hvis2 (by decide))
    · rcases hv with ⟨_, hi, hgt, hv⟩ | ⟨hno, hv⟩
      · exact hfired raw hvis hraw hi hgt (by rw [hv]) (by rw [hv])
      · refine hquiet hv (fun raw2 _ hraw2 hc => hno ⟨ht, ?_⟩)
        have hsame : raw2 = raw := by
          rw [hraw] at hraw2
          exact (Option.some.inj hraw2).symm
        subst hsame
        exact hc

/-- What `processFrame` returns, field by field. -/
theorem processFrame_eq_some (h h1 : Handler) (f : Frame) (r : ReaderAnswers)
    (hp : processFrame h f r = some h1) :
    ∃ plots v,
      channelLoop h.traceSettings f.traces (Double.add h.time f.timestamp) h.plotsMap
        (loopStart h f) = some (plots, v) ∧
      h1.plotsMap = plots ∧ h1.traceSettings = h.traceSettings ∧
      h1.time = Double.add h.time f.timestamp ∧
      h1.traceTriggered = v.traceTriggered ∧
      h1.cnt = (if v.traceTriggered then (v.cnt + 1) % 4294967296 else v.cnt) ∧
      h1.viewerState = (if budgetSpent h.traceSettings v.traceTriggered v.cnt then state.STOP
        else h.viewerState) ∧
      h1.stateChangeOrdered = (if budgetSpent h.traceSettings v.traceTriggered v.cnt then true
        else h.stateChangeOrdered) := by
  unfold processFrame at hp
  cases hm : h.plotsMap with
  | nil => simp [hm] at hp
  | cons first rest =>
    simp only [hm] at hp
    cases hl : channelLoop h.traceSettings f.traces (Double.add h.time f.timestamp)
        (first :: rest) (loopStart h f) with
    | none => simp [hl] at hp
    | some pv =>
      obtain ⟨plots, v⟩ := pv
      simp only [hl, Option.some.injEq] at hp
      refine ⟨plots, v, rfl, ?_⟩
      rw [← hp]
      exact ⟨rfl, rfl, rfl, rfl, rfl, rfl, rfl⟩

/-! ## Frames are processed to the end -/

theorem channelLoop_isSome (S : Settings) (traces : List Nat) (time : Double) :
    ∀ (plots : List Plot) (v : LoopVars), v.i + plots.length ≤ 10 →
      ∃ plots1 v1, channelLoop S traces time plots v = some (plots1, v1) := by
  intro plots
  induction plots with
  | nil => intro v _; exact ⟨[], v, rfl⟩
  | cons plot rest ih =>
    intro v hlen
    simp only [List.length_cons] at hlen
    have hstep : ∃ plot1 v1, channelStep S traces time plot v = some (plot1, v1) ∧
        v1.i = v.i + 1 := by
      unfold channelStep
      have hmod : (v.i + 1) % 4294967296 = v.i + 1 := Nat.mod_eq_of_lt (by omega)
      cases plot.visibility with
      | false => exact ⟨_, _, rfl, hmod⟩
      | true =>
        have hread : readTraces traces v.i = some (traces.getD v.i 0 % 4294967296) := by
          unfold readTraces
          rw [if_pos (by omega)]
        simp only [Bool.not_true, Bool.false_eq_true, if_false, hread]
        refine ⟨_, _, rfl, ?_⟩
        split_ifs <;> exact hmod
    obtain ⟨plot1, v1, hs, hi⟩ := hstep
    obtain ⟨rest1, v2, hr⟩ := ih v1 (by omega)
    refine ⟨plot1 :: rest1, v2, ?_⟩
    unfold channelLoop
    rw [hs]
    simp only [hr]

/-- With at least one and at most ten plots, a frame is processed to the end, and the
number of plots stays. -/
theorem processFrame_isSome (h : Handler) (f : Frame) (r : ReaderAnswers)
    (hne : h.plotsMap ≠ []) (hlen : h.plotsMap.length ≤ 10) :
    ∃ h1, processFrame h f r = some h1 ∧ h1.plotsMap.length = h.plotsMap.length := by
  obtain ⟨plots, v, hl⟩ := channelLoop_isSome h.traceSettings f.traces
    (Double.add h.time f.timestamp) h.plotsMap (loopStart h f)
    (by simp only [loopStart]; omega)
  have hcfg := congrArg List.length (channelLoop_config _ _ _ _ _ _ _ hl)
  simp only [List.length_map] at hcfg
  unfold processFrame
  cases hm : h.plotsMap with
  | nil => exact absurd hm hne
  | cons first rest =>
    rw [hm] at hl hcfg
    simp only [hl]
    exact ⟨_, rfl, hcfg⟩

/-- With at least one and at most ten plots, the frames of a session are all processed. -/
theorem processFrames_isSome :
    ∀ (fs : List (Frame × ReaderAnswers)) (h : Handler), h.plotsMap ≠ [] →
      h.plotsMap.length ≤ 10 → ∃ hn, processFrames h fs = some hn := by
  intro fs
  induction fs with
  | nil => intro h _ _; exact ⟨h, rfl⟩
  | cons fr rest ih =>
    intro h hne hlen
    obtain ⟨h1, hp, hl1⟩ := processFrame_isSome h fr.1 fr.2 hne hlen
    have hne1 : h1.plotsMap ≠ [] := by
      intro h0
      rw [h0] at hl1
      exact hne (List.length_eq_zero.1 hl1.symm)
    obtain ⟨hn, hps⟩ := ih h1 hne1 (by omega)
    refine ⟨hn, ?_⟩
    unfold processFrames
    rw [hp]
    exact hps

/-! ## The trigger -/

theorem budgetSpent_untriggered (S : Settings) (c : Nat) : budgetSpent S false c = false := by
  simp [budgetSpent]

/-- A frame processed while triggered leaves `traceTriggered` set and the settings alone. -/
theorem processFrame_keeps_triggered (h h1 : Handler) (f : Frame) (r : ReaderAnswers)
    (hp : processFrame h f r = some h1) (ht : h.traceTriggered = true) :
    h1.traceTriggered = true := by
  obtain ⟨plots, v, hl, _, _, _, htr, _⟩ := processFrame_eq_some h h1 f r hp
  rw [htr]
  exact (channelLoop_keeps_triggered _ _ _ _ _ _ _ hl ht).1

/-- Frames processed while triggered leave `traceTriggered` set. -/
theorem processFrames_keeps_triggered :
    ∀ (fs : List (Frame × ReaderAnswers)) (h hn : Handler),
      processFrames h fs = some hn → h.traceTriggered = true → hn.traceTriggered = true := by
  intro fs
  induction fs with
  | nil =>
    intro h hn hp ht
    simp only [processFrames, Option.some.injEq] at hp
    rw [← hp]; exact ht
  | cons fr rest ih =>
    intro h hn hp ht
    unfold processFrames at hp
    cases h1 : processFrame h fr.1 fr.2 with
    | none => simp [h1] at hp
    | some h2 =>
      simp only [h1] at hp
      exact ih h2 hn hp (processFrame_keeps_triggered h h2 fr.1 fr.2 h1 ht)

theorem castU32_negative (z : Int) (hneg : z < 0) (hmin : -2147483648 ≤ z) :
    10 ≤ castU32 z := by
  unfold castU32
  omega

/-- One frame with no trigger channel configured. -/
theorem processFrame_no_trigger_channel (h h1 : Handler) (f : Frame) (r : ReaderAnswers)
    (hneg : h.traceSettings.triggerChannel < 0)
    (hmin : -2147483648 ≤ h.traceSettings.triggerChannel)
    (hun : h.traceTriggered = false)
    (hp : processFrame h f r = some h1) :
    h1.traceTriggered = false ∧ h1.viewerState = h.viewerState ∧
      h1.stateChangeOrdered = h.stateChangeOrdered ∧ h1.traceSettings = h.traceSettings := by
  obtain ⟨plots, v, hl, _, hs, _, htr, _, hvs, hfl⟩ := processFrame_eq_some h h1 f r hp
  have hv := (channelLoop_never_fires _ _ _ (castU32_negative _ hneg hmin) _ _ _ _ hl hun).1
  rw [hv, budgetSpent_untriggered] at hvs hfl
  exact ⟨htr.trans hv, by simpa using hvs, by simpa using hfl, hs⟩

/-- Frames of a session with no trigger channel configured. -/
theorem processFrames_no_trigger_channel (fs : List (Frame × ReaderAnswers)) (h hn : Handler)
    (hneg : h.traceSettings.triggerChannel < 0)
    (hmin : -2147483648 ≤ h.traceSettings.triggerChannel)
    (hun : h.traceTriggered = false)
    (hp : processFrames h fs = some hn) :
    hn.traceTriggered = false ∧ hn.viewerState = h.viewerState ∧
      hn.stateChangeOrdered = h.stateChangeOrdered := by
  induction fs generalizing h with
  | nil =>
    simp only [processFrames, Option.some.injEq] at hp
    rw [← hp]
    exact ⟨hun, rfl, rfl⟩
  | cons fr rest ih =>
    unfold processFrames at hp
    cases h1 : processFrame h fr.1 fr.2 with
    | none => simp [h1] at hp
    | some h2 =>
      simp only [h1] at hp
      obtain ⟨ht, hvs, hfl, hs⟩ := processFrame_no_trigger_channel h h2 fr.1 fr.2 hneg hmin hun h1
      have h3 := ih h2 (by rw [hs]; exact hneg) (by rw [hs]; exact hmin) ht hp
      exact ⟨h3.1, h3.2.1.trans hvs, h3.2.2.trans hfl⟩

theorem castU32_ofNat (c : Nat) (hc : c < 4294967296) : castU32 (c : Int) = c := by
  unfold castU32
  omega

/-- One frame of a session that is still untriggered, the configured trigger channel `c`
being the visible plot `p`: the frame ends triggered exactly when the value decoded for
`p` from `traces[c]` is above the level; settings and channel configuration stay. -/
theorem processFrame_trigger (h h1 : Handler) (f : Frame) (r : ReaderAnswers) (c : Nat)
    (p : Plot) (hp : processFrame h f r = some h1) (hun : h.traceTriggered = false)
    (hlen : h.plotsMap.length < 4294967296)
    (hc : h.traceSettings.triggerChannel = (c : Int))
    (hpc : h.plotsMap[c]? = some p) (hvis : p.visibility = true) :
    (h1.traceTriggered = true ↔
      ∃ w, readTraces f.traces c = some w ∧
        Double.gt (getDoubleValue p w) h.traceSettings.triggerLevel = true) ∧
    h1.traceSettings = h.traceSettings ∧ h1.plotsMap.length = h.plotsMap.length ∧
    ∃ p1, h1.plotsMap[c]? = some p1 ∧ p1.channelConfig = p.channelConfig := by
  obtain ⟨plots, v, hl, hpl, hs, _, htr, _⟩ := processFrame_eq_some h h1 f r hp
  have hclt : c < h.plotsMap.length := by
    rcases Nat.lt_or_ge c h.plotsMap.length with hlt | hge
    · exact hlt
    · rw [List.getElem?_eq_none hge] at hpc
      exact absurd hpc (by simp)
  have hcast : castU32 h.traceSettings.triggerChannel = c := by
    rw [hc]
    exact castU32_ofNat c (by omega)
  have hfire := (channelLoop_fires_iff _ _ _ _ _ _ _ hl hun
    (by simp only [loopStart]; omega)).1
  have hcfg := channelLoop_config _ _ _ _ _ _ _ hl
  refine ⟨?_, hs, ?_, ?_⟩
  · rw [htr, hfire, hcast]
    simp only [loopStart, Nat.zero_add]
    constructor
    · rintro ⟨j, q, w, hj, hjc, _, hraw, hgt⟩
      subst hjc
      rw [hpc] at hj
      injection hj with hj
      subst hj
      exact ⟨w, hraw, hgt⟩
    · rintro ⟨w, hraw, hgt⟩
      exact ⟨c, p, w, hpc, rfl, hvis, hraw, hgt⟩
  · rw [hpl]
    have := congrArg List.length hcfg
    simpa using this
  · rw [hpl]
    have hget := congrArg (fun l => l[c]?) hcfg
    simp only [List.getElem?_map, hpc, Option.map_some'] at hget
    cases hq : plots[c]? with
    | none => simp [hq] at hget
    | some q =>
      simp only [hq, Option.map_some', Option.some.injEq] at hget
      exact ⟨q, rfl, hget⟩

/-- Frames of a session whose trigger channel first exceeds the level on frame `k`. -/
theorem processFrames_trigger_iff (fs : List (Frame × ReaderAnswers)) (h : Handler) (c k : Nat)
    (p : Plot) (level : Double)
    (hlen : h.plotsMap.length < 4294967296)
    (hun : h.traceTriggered = false)
    (hc : h.traceSettings.triggerChannel = (c : Int))
    (hlevel : h.traceSettings.triggerLevel = level)
    (hpc : h.plotsMap[c]? = some p) (hvis : p.visibility = true)
    (hbefore : ∀ j fr w, j < k → fs[j]? = some fr → readTraces fr.1.traces c = some w →
      Double.gt (getDoubleValue p w) level = false)
    (hat : ∃ fr w, fs[k]? = some fr ∧ readTraces fr.1.traces c = some w ∧
      Double.gt (getDoubleValue p w) level = true)
    (n : Nat) (hn : Handler) (hrun : processFrames h (fs.take n) = some hn) :
    (hn.traceTriggered = true ↔ k < n) := by
  induction fs generalizing h k n p with
  | nil =>
    obtain ⟨fr, w, hk, _⟩ := hat
    simp at hk
  | cons fr rest ih =>
    cases n with
    | zero =>
      simp only [List.take_zero, processFrames, Option.some.injEq] at hrun
      rw [← hrun, hun]
      simp
    | succ n =>
      simp only [List.take_succ_cons] at hrun
      unfold processFrames at hrun
      cases h1 : processFrame h fr.1 fr.2 with
      | none => simp [h1] at hrun
      | some h2 =>
        simp only [h1] at hrun
        obtain ⟨hfire, hs, hl2, p1, hp1, hcfg⟩ :=
          processFrame_trigger h h2 fr.1 fr.2 c p h1 hun hlen hc hpc hvis
        cases k with
        | zero =>
          obtain ⟨fr0, w, hk, hraw, hgt⟩ := hat
          simp only [List.getElem?_cons_zero, Option.some.injEq] at hk
          subst hk
          have ht2 : h2.traceTriggered = true := hfire.2 ⟨w, hraw, by rw [hlevel]; exact hgt⟩
          have := processFrames_keeps_triggered _ _ _ hrun ht2
          simp [this]
        | succ k =>
          have ht2 : h2.traceTriggered = false := by
            cases hb : h2.traceTriggered with
            | false => rfl
            | true =>
              obtain ⟨w, hraw, hgt⟩ := hfire.1 hb
              have := hbefore 0 fr w (Nat.succ_pos k) (by simp) hraw
              rw [hlevel, this] at hgt
              exact absurd hgt (by decide)
          have hcongr : ∀ w, getDoubleValue p1 w = getDoubleValue p w :=
            fun w => getDoubleValue_congr p1 p w hcfg
          have hvis1 : p1.visibility = true := by
            have := congrArg Prod.fst hcfg
            simp only [Plot.channelConfig] at this
            rw [this]; exact hvis
          have := ih h2 k p1 (by rw [hl2]; exact hlen) ht2 (by rw [hs]; exact hc)
            (by rw [hs]; exact hlevel) hp1 hvis1
            (fun j fr2 w hj hfr hraw => by
              rw [hcongr]
              exact hbefore (j + 1) fr2 w (by omega) (by simpa using hfr) hraw)
            (by
              obtain ⟨frk, w, hk, hraw, hgt⟩ := hat
              exact ⟨frk, w, by simpa using hk, hraw, by rw [hcongr]; exact hgt⟩)
            n hrun
          rw [this]
          omega

/-! ## Rounding: the comparison of source line 160 in integers -/

namespace Double

theorem log2Step_inv (n k : Nat) (a : Nat × Nat) (h0 : 0 < a.1) (h1 : a.1 = n / 2 ^ a.2)
    (h2 : a.1 < 2 ^ k * 2 ^ k) :
    0 < (log2Step a k).1 ∧ (log2Step a k).1 = n / 2 ^ (log2Step a k).2 ∧
      (log2Step a k).1 < 2 ^ k := by
  unfold log2Step
  by_cases hk : 2 ^ k ≤ a.1
  · rw [if_pos hk]
    refine ⟨Nat.div_pos hk (Nat.two_pow_pos k), ?_, ?_⟩
    · show a.1 / 2 ^ k = n / 2 ^ (a.2 + k)
      rw [h1, Nat.div_div_eq_div_mul, ← pow_add]
    · exact Nat.div_lt_of_lt_mul h2
  · rw [if_neg hk]
    exact ⟨h0, h1, Nat.lt_of_not_le hk⟩

theorem foldl_log2Step (n : Nat) :
    ∀ (m : Nat) (a : Nat × Nat), 0 < a.1 → a.1 = n / 2 ^ a.2 → a.1 < 2 ^ 2 ^ m →
      (((List.range m).reverse.map (fun j => 2 ^ j)).foldl log2Step a).1 = 1 ∧
      n / 2 ^ (((List.range m).reverse.map (fun j => 2 ^ j)).foldl log2Step a).2 = 1 := by
  intro m
  induction m with
  | zero =>
    intro a h0 h1 h2
    simp only [List.range_zero, List.reverse_nil, List.map_nil, List.foldl_nil]
    have : a.1 = 1 := by
      simp only [pow_zero, pow_one] at h2
      omega
    exact ⟨this, by rw [← h1, this]⟩
  | succ m ih =>
    intro a h0 h1 h2
    rw [List.range_succ, List.reverse_append, List.reverse_singleton, List.singleton_append,
      List.map_cons, List.foldl_cons]
    have h3 : a.1 < 2 ^ 2 ^ m * 2 ^ 2 ^ m := by
      rw [← pow_add, ← two_mul, ← pow_succ']
      exact h2
    obtain ⟨s0, s1, s2⟩ := log2Step_inv n (2 ^ m) a h0 h1 h3
    exact ih _ s0 s1 s2

theorem ilog2_spec (n : Nat) (h0 : 0 < n) (hb : n < 2 ^ 8192) :
    2 ^ ilog2 n ≤ n ∧ n < 2 ^ (ilog2 n + 1) := by
  have hsplit : (2 : Nat) ^ 8192 = 2 ^ 4096 * 2 ^ 4096 := by rw [← pow_add]
  have hcond : n / 2 ^ 4096 < 2 ^ 4096 := Nat.div_lt_of_lt_mul (by rw [← hsplit]; exact hb)
  have hlist : [4096, 2048, 1024, 512, 256, 128, 64, 32, 16, 8, 4, 2, 1]
      = (List.range 13).reverse.map (fun j => 2 ^ j) := by decide
  unfold ilog2
  rw [if_pos hcond, hlist]
  have h13 : (2 : Nat) ^ 8192 = 2 ^ 2 ^ 13 := by norm_num
  have := (foldl_log2Step n 13 (n, 0) h0 (by simp) (by rw [← h13]; exact hb)).2
  generalize (((List.range 13).reverse.map (fun j => 2 ^ j)).foldl log2Step (n, 0)).2 = L
    at this ⊢
  have hpos : 0 < 2 ^ L := Nat.two_pow_pos L
  constructor
  · by_contra hlt
    rw [Nat.div_eq_of_lt (Nat.lt_of_not_le hlt)] at this
    exact absurd this (by decide)
  · rw [pow_succ]
    by_contra hge
    have h2 : 2 ≤ n / 2 ^ L := by
      rw [Nat.le_div_iff_mul_le hpos]
      omega
    omega

theorem ilog2_unique (n L : Nat) (hlo : 2 ^ L ≤ n) (hhi : n < 2 ^ (L + 1))
    (hb : n < 2 ^ 8192) : ilog2 n = L := by
  have h0 : 0 < n := Nat.lt_of_lt_of_le (Nat.two_pow_pos L) hlo
  obtain ⟨h1, h2⟩ := ilog2_spec n h0 hb
  have ha : ilog2 n < L + 1 := (Nat.pow_lt_pow_iff_right (by decide : 1 < 2)).1
    (Nat.lt_of_le_of_lt h1 hhi)
  have hb2 : L < ilog2 n + 1 := (Nat.pow_lt_pow_iff_right (by decide : 1 < 2)).1
    (Nat.lt_of_le_of_lt hlo h2)
  omega

theorem rne_shift (n s k : Nat) : rne (n * 2 ^ k) (s + k) = rne n s := by
  have hk : 0 < 2 ^ k := Nat.two_pow_pos k
  have hq : n * 2 ^ k / 2 ^ (s + k) = n / 2 ^ s := by
    rw [pow_add, Nat.mul_div_mul_right _ _ hk]
  have hr : n * 2 ^ k % 2 ^ (s + k) = n % 2 ^ s * 2 ^ k := by
    rw [pow_add, Nat.mul_mod_mul_right]
  have hlt : (2 * (n % 2 ^ s * 2 ^ k) < 2 ^ (s + k)) ↔ (2 * (n % 2 ^ s) < 2 ^ s) := by
    rw [pow_add, ← Nat.mul_assoc]
    exact Nat.mul_lt_mul_right hk
  have hgt : (2 ^ (s + k) < 2 * (n % 2 ^ s * 2 ^ k)) ↔ (2 ^ s < 2 * (n % 2 ^ s)) := by
    rw [pow_add, ← Nat.mul_assoc]
    exact Nat.mul_lt_mul_right hk
  unfold rne
  simp only [hq, hr, hlt, hgt]

/-- Rounding to the nearest multiple of `2^s` moves a number by at most half of `2^s`. -/
theorem rne_bounds (n s : Nat) :
    2 * (rne n s * 2 ^ s) ≤ 2 * n + 2 ^ s ∧ 2 * n ≤ 2 * (rne n s * 2 ^ s) + 2 ^ s := by
  have hdm := Nat.div_add_mod n (2 ^ s)
  have hr := Nat.mod_lt n (Nat.two_pow_pos s)
  unfold rne
  simp only []
  generalize 2 ^ s = P at *
  generalize n % P = r at *
  rw [Nat.mul_comm] at hdm
  have hsucc : (n / P + 1) * P = n / P * P + P := by rw [Nat.add_mul, Nat.one_mul]
  split_ifs <;> (try rw [hsucc]) <;> generalize n / P * P = QP at * <;> omega

/-- With `maxPoints * 0.9` at most 32 bits beyond the 53 of a significand, rounding does not
move the comparison: `cnt < fl(maxPoints * 0.9)` exactly when `10 * cnt < 9 * maxPoints`. -/
theorem rne_ninetenths (mp c L : Nat) (hL : L ≤ 32)
    (hhi : mp * 8106479329266893 < 2 ^ (L + 53)) :
    (c * 2 ^ 53 < rne (mp * 8106479329266893) L * 2 ^ L) ↔ ¬ (9 * mp ≤ 10 * c) := by
  obtain ⟨hb1, hb2⟩ := rne_bounds (mp * 8106479329266893) L
  have hP : 2 ^ L ≤ 2 ^ 32 := Nat.pow_le_pow_right (by decide) hL
  have hPM : 2 ^ 53 = 2 ^ (53 - L) * 2 ^ L := by
    rw [← pow_add]
    congr 1
    omega
  rw [pow_add] at hhi
  generalize rne (mp * 8106479329266893) L = X at *
  generalize 2 ^ (53 - L) = M at *
  generalize 2 ^ L = P at *
  constructor
  · intro h1 h2
    have hc : c * 2 ^ 53 = (c * M) * P := by rw [hPM, Nat.mul_assoc]
    rw [hc] at h1
    have h3 : c * M < X := Nat.lt_of_mul_lt_mul_right h1
    have h4 : (c * M + 1) * P ≤ X * P := Nat.mul_le_mul_right P h3
    rw [Nat.add_mul, ← hc, Nat.one_mul] at h4
    generalize X * P = R at *
    omega
  · intro h
    generalize X * P = R at *
    omega

theorem two_pow_mono {a b : Nat} (h : a ≤ b) : (2 : Nat) ^ a ≤ 2 ^ b :=
  Nat.pow_le_pow_right (by decide) h

theorem rne_zero (s : Nat) : rne 0 s = 0 := by
  unfold rne
  simp [Nat.two_pow_pos]

theorem roundProduct_natCast (m : Nat) :
    roundProduct (m : Int)
      = pack false (rne m (max (ilog2 m - 52) 1074) * 2 ^ (max (ilog2 m - 52) 1074 - 1074)) := by
  unfold roundProduct
  have hneg : decide ((m : Int) < 0) = false := by
    rw [decide_eq_false_iff_not]
    omega
  simp only [Int.natAbs_ofNat, hneg]

theorem pack_small (m b : Nat) (hm : m < 2 ^ b) (hb : b ≤ 2098) :
    pack false m = fin (m : Int) := by
  unfold pack overflowAt
  have h2 : (2 : Nat) ^ b ≤ 2 ^ 2098 := two_pow_mono hb
  rw [if_neg (Nat.not_le_of_lt (Nat.lt_of_lt_of_le hm h2))]
  simp

/-- Rounding of the exact product `N * 2^e` (in units of `2^-2148`) when `N` has `L + 1`
bits, at least 53, and the result is a normal double. -/
theorem roundProduct_shifted (N L e : Nat) (h1 : 2 ^ L ≤ N) (h2 : N < 2 ^ (L + 1))
    (hL : 52 ≤ L) (he : 1074 ≤ e) (hb : L + e + 1 ≤ 3100) :
    roundProduct ((N * 2 ^ e : Nat) : Int)
      = fin ((rne N (L - 52) * 2 ^ (L - 52) * 2 ^ (e - 1074) : Nat) : Int) := by
  have hlog : ilog2 (N * 2 ^ e) = L + e := by
    apply ilog2_unique
    · rw [pow_add]
      exact Nat.mul_le_mul_right _ h1
    · have : L + e + 1 = (L + 1) + e := by omega
      rw [this, pow_add]
      exact Nat.mul_lt_mul_of_pos_right h2 (Nat.two_pow_pos e)
    · have h3 : N * 2 ^ e < 2 ^ (L + 1) * 2 ^ e :=
        Nat.mul_lt_mul_of_pos_right h2 (Nat.two_pow_pos e)
      rw [← pow_add] at h3
      exact Nat.lt_of_lt_of_le h3 (two_pow_mono (by omega))
  have hmax : max (L + e - 52) 1074 = (L - 52) + e := by
    rw [Nat.max_def]
    split_ifs <;> omega
  have hexp : (L - 52) + e - 1074 = (L - 52) + (e - 1074) := by omega
  rw [roundProduct_natCast, hlog, hmax, hexp, rne_shift, pow_add, ← Nat.mul_assoc]
  have hbd := (rne_bounds N (L - 52)).1
  have hPle : 2 ^ (L - 52) ≤ 2 ^ L := two_pow_mono (by omega)
  have hsmall : rne N (L - 52) * 2 ^ (L - 52) < 2 ^ (L + 2) := by
    have h4 : (2 : Nat) ^ (L + 2) = 2 * 2 ^ (L + 1) := by rw [pow_succ]; ring
    have h5 : (2 : Nat) ^ (L + 1) = 2 * 2 ^ L := by rw [pow_succ]; ring
    generalize rne N (L - 52) * 2 ^ (L - 52) = R at *
    omega
  have h6 := Nat.mul_lt_mul_of_pos_right hsmall (Nat.two_pow_pos (e - 1074))
  rw [← pow_add] at h6
  exact pack_small _ _ h6 (by omega)

theorem ge_ofNat_fin (c R : Nat) : ge (ofNat c) (fin (R : Int)) = decide (R ≤ c * scale) := by
  unfold ge ofNat ofInt lt
  simp only []
  rw [← Nat.cast_mul]
  cases hd : decide (R ≤ c * scale) with
  | true =>
    rw [decide_eq_true_iff] at hd
    simp only [Bool.not_eq_true', decide_eq_false_iff_not]
    omega
  | false =>
    rw [decide_eq_false_iff_not] at hd
    simp only [Bool.not_eq_false', decide_eq_true_iff]
    omega

theorem product_exact (mp sig a b : Nat) :
    (mp : Int) * ((2 ^ a : Nat) : Int) * ((sig * 2 ^ b : Nat) : Int)
      = ((mp * sig * 2 ^ (a + b) : Nat) : Int) := by
  rw [← Nat.cast_mul, ← Nat.cast_mul, pow_add]
  congr 1
  ring

/-- The comparison of source line 160 in integers: for a 32-bit `maxPoints`,
`cnt >= maxPoints * 0.9` in `double` holds exactly when `9 * maxPoints ≤ 10 * cnt`. -/
theorem ge_mul_ninetenths (mp c : Nat) (hmp : mp < 4294967296) :
    ge (ofNat c) (mul (ofNat mp) ninetenths) = decide (9 * mp ≤ 10 * c) := by
  have hscale : scale = 2 ^ 53 * 2 ^ 1021 := by
    unfold scale
    rw [← pow_add]
  have hK : 0 < (2 : Nat) ^ 1021 := pow_pos (by decide) _
  have hmul : mul (ofNat mp) ninetenths
      = roundProduct ((mp * 8106479329266893 * 2 ^ (1074 + 1021) : Nat) : Int) := by
    rw [← product_exact]
    rfl
  rcases Nat.eq_zero_or_pos mp with h0 | h0
  · subst h0
    rw [hmul, roundProduct_natCast]
    simp only [Nat.zero_mul, rne_zero]
    have hp : pack false 0 = fin ((0 : Nat) : Int) := pack_small 0 0 (by decide) (by decide)
    rw [hp, ge_ofNat_fin]
    simp
  · have hN0 : 0 < mp * 8106479329266893 := Nat.mul_pos h0 (by decide)
    have hNlo : 2 ^ 52 ≤ mp * 8106479329266893 := by norm_num; omega
    have hNhi : mp * 8106479329266893 < 2 ^ 85 := by norm_num; omega
    obtain ⟨hs1, hs2⟩ := ilog2_spec (mp * 8106479329266893) hN0
      (Nat.lt_of_lt_of_le hNhi (two_pow_mono (by decide)))
    generalize ilog2 (mp * 8106479329266893) = L at hs1 hs2
    have hL52 : 52 ≤ L := by
      by_contra hlt
      have : (2 : Nat) ^ (L + 1) ≤ 2 ^ 52 := two_pow_mono (by omega)
      omega
    have hL84 : L ≤ 84 := by
      by_contra hgt
      have : (2 : Nat) ^ 85 ≤ 2 ^ L := two_pow_mono (by omega)
      omega
    rw [hmul, roundProduct_shifted _ L _ hs1 hs2 hL52 (by omega) (by omega),
      Nat.add_sub_cancel_left, ge_ofNat_fin, hscale, ← Nat.mul_assoc]
    have hcmp : (rne (mp * 8106479329266893) (L - 52) * 2 ^ (L - 52) * 2 ^ 1021
        ≤ c * 2 ^ 53 * 2 ^ 1021) ↔ (9 * mp ≤ 10 * c) := by
      rw [mul_le_mul_right hK, ← not_lt,
        rne_ninetenths mp c (L - 52) (by omega)
          (by rw [show L - 52 + 53 = L + 1 by omega]; exact hs2)]
      exact not_not
    exact decide_eq_decide.2 hcmp

end Double

/-! ## The post-trigger budget -/

theorem budgetSpent_triggered (S : Settings) (c : Nat) (hmp : S.maxPoints < 4294967296) :
    budgetSpent S true c = decide (9 * S.maxPoints ≤ 10 * c) := by
  unfold budgetSpent
  rw [Bool.true_and]
  exact Double.ge_mul_ninetenths S.maxPoints c hmp

/-- The loop over the plots resets `cnt` when, and only when, it fires the trigger. -/
theorem channelLoop_cnt (S : Settings) (traces : List Nat) (time : Double) :
    ∀ (plots plots1 : List Plot) (v v1 : LoopVars),
      channelLoop S traces time plots v = some (plots1, v1) → v.traceTriggered = false →
      (v1.traceTriggered = true → v1.cnt = 0) ∧ (v1.traceTriggered = false → v1.cnt = v.cnt) := by
  intro plots
  induction plots with
  | nil =>
    intro plots1 v v1 hl ht
    simp only [channelLoop, Option.some.injEq, Prod.mk.injEq] at hl
    rw [← hl.2]
    simp [ht]
  | cons plot rest ih =>
    intro plots1 v v2 hl ht
    obtain ⟨plot1, v1, rest1, hs, hr, _⟩ := channelLoop_cons_eq_some S traces time _ _ _ _ _ hl
    have hquiet : v1 = { v with i := (v.i + 1) % 4294967296 } →
        (v2.traceTriggered = true → v2.cnt = 0) ∧
          (v2.traceTriggered = false → v2.cnt = v.cnt) := by
      intro hv
      have h2 := ih rest1 v1 v2 hr (by rw [hv]; exact ht)
      exact ⟨h2.1, fun hf => (h2.2 hf).trans (by rw [hv])⟩
    rcases channelStep_eq_some S traces time _ _ _ _ hs with ⟨_, _, hv⟩ | ⟨_, raw, _, _, hv⟩
    · exact hquiet hv
    · rcases hv with ⟨_, _, _, hv⟩ | ⟨_, hv⟩
      · have h2 := channelLoop_keeps_triggered S traces time rest rest1 v1 v2 hr (by rw [hv])
        refine ⟨fun _ => h2.2.trans (by rw [hv]), fun hf => ?_⟩
        rw [h2.1] at hf
        exact absurd hf (by decide)
      · exact hquiet hv

/-- The frame on which the trigger fires: `cnt` is `1` afterwards, and STOP is requested on
that very frame only for `maxPoints = 0`. -/
theorem processFrame_firing (h h1 : Handler) (f : Frame) (r : ReaderAnswers)
    (hp : processFrame h f r = some h1) (hun : h.traceTriggered = false)
    (hfire : h1.traceTriggered = true) (hmp : h.traceSettings.maxPoints < 4294967296) :
    h1.cnt = 1 ∧ h1.traceSettings = h.traceSettings ∧
    (h.traceSettings.maxPoints = 0 →
      h1.viewerState = state.STOP ∧ h1.stateChangeOrdered = true) ∧
    (0 < h.traceSettings.maxPoints →
      h1.viewerState = h.viewerState ∧ h1.stateChangeOrdered = h.stateChangeOrdered) := by
  obtain ⟨plots, v, hl, _, hs, _, htr, hcnt, hvs, hfl⟩ := processFrame_eq_some h h1 f r hp
  have hv : v.traceTriggered = true := by rw [← htr]; exact hfire
  have hc0 : v.cnt = 0 := (channelLoop_cnt _ _ _ _ _ _ _ hl hun).1 hv
  rw [hv, hc0, budgetSpent_triggered _ _ hmp] at hvs hfl
  rw [hv, hc0] at hcnt
  refine ⟨by simpa using hcnt, hs, fun h0 => ?_, fun h0 => ?_⟩
  · rw [h0] at hvs hfl
    exact ⟨by simpa using hvs, by simpa using hfl⟩
  · have hno : ¬ (9 * h.traceSettings.maxPoints ≤ 10 * 0) := by omega
    rw [decide_eq_false hno] at hvs hfl
    exact ⟨by simpa using hvs, by simpa using hfl⟩

/-- A frame processed while triggered: `cnt` counts it, and STOP is requested exactly when
`9 * maxPoints ≤ 10 * cnt` for the count before the frame. -/
theorem processFrame_triggered (h h1 : Handler) (f : Frame) (r : ReaderAnswers)
    (hp : processFrame h f r = some h1) (ht : h.traceTriggered = true)
    (hmp : h.traceSettings.maxPoints < 4294967296) :
    h1.traceTriggered = true ∧ h1.traceSettings = h.traceSettings ∧
    h1.cnt = (h.cnt + 1) % 4294967296 ∧
    (9 * h.traceSettings.maxPoints ≤ 10 * h.cnt →
      h1.viewerState = state.STOP ∧ h1.stateChangeOrdered = true) ∧
    (¬ (9 * h.traceSettings.maxPoints ≤ 10 * h.cnt) →
      h1.viewerState = h.viewerState ∧ h1.stateChangeOrdered = h.stateChangeOrdered) := by
  obtain ⟨plots, v, hl, _, hs, _, htr, hcnt, hvs, hfl⟩ := processFrame_eq_some h h1 f r hp
  obtain ⟨hv, hc⟩ := channelLoop_keeps_triggered _ _ _ _ _ _ _ hl ht
  have hc2 : v.cnt = h.cnt := hc
  rw [hv, hc2, budgetSpent_triggered _ _ hmp] at hvs hfl
  rw [hv, hc2] at hcnt
  refine ⟨htr.trans hv, hs, by simpa using hcnt, fun hyes => ?_, fun hno => ?_⟩
  · rw [decide_eq_true hyes] at hvs hfl
    exact ⟨by simpa using hvs, by simpa using hfl⟩
  · rw [decide_eq_false hno] at hvs hfl
    exact ⟨by simpa using hvs, by simpa using hfl⟩

/-- Frames processed while triggered, `cnt` not wrapping: the count advances by one per
frame; no STOP is requested while the counts compared stay below nine tenths of
`maxPoints`, and the last frame requests STOP once the count it compares has reached them. -/
theorem processFrames_triggered :
    ∀ (fs : List (Frame × ReaderAnswers)) (h hn : Handler),
      processFrames h fs = some hn → h.traceTriggered = true →
      h.traceSettings.maxPoints < 4294967296 → h.cnt + fs.length < 4294967296 →
      hn.cnt = h.cnt + fs.length ∧
      (10 * (h.cnt + fs.length) < 9 * h.traceSettings.maxPoints + 10 →
        hn.viewerState = h.viewerState ∧ hn.stateChangeOrdered = h.stateChangeOrdered) ∧
      (fs ≠ [] → 9 * h.traceSettings.maxPoints ≤ 10 * (h.cnt + fs.length - 1) →
        hn.viewerState = state.STOP ∧ hn.stateChangeOrdered = true) := by
  intro fs
  induction fs with
  | nil =>
    intro h hn hp _ _ _
    simp only [processFrames, Option.some.injEq] at hp
    rw [← hp]
    simp
  | cons fr rest ih =>
    intro h hn hp ht hmp hlen
    unfold processFrames at hp
    cases h1 : processFrame h fr.1 fr.2 with
    | none => simp [h1] at hp
    | some h2 =>
      simp only [h1] at hp
      simp only [List.length_cons] at hlen ⊢
      obtain ⟨ht2, hs2, hc2, hyes, hno⟩ := processFrame_triggered h h2 fr.1 fr.2 h1 ht hmp
      rw [Nat.mod_eq_of_lt (by omega)] at hc2
      obtain ⟨hcn, hquiet, hstop⟩ := ih h2 hn hp ht2 (by rw [hs2]; exact hmp)
        (by rw [hc2]; omega)
      rw [hs2, hc2] at hquiet hstop
      refine ⟨by rw [hcn, hc2]; omega, fun hlt => ?_, fun _ hge => ?_⟩
      · obtain ⟨q1, q2⟩ := hquiet (by omega)
        obtain ⟨n1, n2⟩ := hno (by omega)
        exact ⟨q1.trans n1, q2.trans n2⟩
      · cases rest with
        | nil =>
          simp only [processFrames, Option.some.injEq] at hp
          rw [← hp]
          exact hyes (by simp only [List.length_nil] at hge; omega)
        | cons fr2 rest2 =>
          exact hstop (by simp) (by simp only [List.length_cons] at hge ⊢; omega)

/-- The frames that follow the frame on which the trigger fired. -/
theorem processFrames_auto_stop (h h1 hn : Handler) (f : Frame) (r : ReaderAnswers)
    (fs : List (Frame × ReaderAnswers))
    (hmp : h.traceSettings.maxPoints < 4294967296)
    (hun : h.traceTriggered = false) (hrun : h.viewerState = state.RUN)
    (hflag : h.stateChangeOrdered = false)
    (hp : processFrame h f r = some h1) (hfire : h1.traceTriggered = true)
    (hps : processFrames h1 fs = some hn) :
    (fs.length < (9 * h.traceSettings.maxPoints + 9) / 10 →
      hn.viewerState = state.RUN ∧ hn.stateChangeOrdered = false) ∧
    (fs.length = (9 * h.traceSettings.maxPoints + 9) / 10 →
      hn.viewerState = state.STOP ∧ hn.stateChangeOrdered = true) := by
  obtain ⟨hc1, hs1, hzero, hpos⟩ := processFrame_firing h h1 f r hp hun hfire hmp
  constructor
  · intro hlt
    obtain ⟨_, hquiet, _⟩ := processFrames_triggered fs h1 hn hps hfire
      (by rw [hs1]; exact hmp) (by rw [hc1]; omega)
    rw [hs1, hc1] at hquiet
    obtain ⟨q1, q2⟩ := hquiet (by omega)
    obtain ⟨p1, p2⟩ := hpos (by omega)
    exact ⟨q1.trans (p1.trans hrun), q2.trans (p2.trans hflag)⟩
  · intro heq
    cases fs with
    | nil =>
      simp only [processFrames, Option.some.injEq] at hps
      rw [← hps]
      exact hzero (by simp only [List.length_nil] at heq; omega)
    | cons fr rest =>
      obtain ⟨_, _, hstop⟩ := processFrames_triggered (fr :: rest) h1 hn hps hfire
        (by rw [hs1]; exact hmp) (by rw [hc1]; omega)
      rw [hs1, hc1] at hstop
      exact hstop (by simp) (by omega)

/-! ## The trigger engine over a session -/

/-- C3: in a RUN session that starts untriggered, the configured trigger channel `c` being
the visible plot `p`, if the value decoded for `p` is not above the trigger level on the
frames before frame `k` and is above it on frame `k`, then after `n` frames `traceTriggered`
is set exactly when frame `k` is among them: false after each frame before `k`, true after
frame `k` and after every later frame of the session.  With at most ten plots the frames
are all processed. -/
theorem C3_trigger_fires_once (fs : List (Frame × ReaderAnswers)) (h : Handler) (c k : Nat)
    (p : Plot) (level : Double)
    (hlen : h.plotsMap.length < 4294967296)
    (hun : h.traceTriggered = false)
    (hc : h.traceSettings.triggerChannel = (c : Int))
    (hlevel : h.traceSettings.triggerLevel = level)
    (hpc : h.plotsMap[c]? = some p) (hvis : p.visibility = true)
    (hbefore : ∀ j fr w, j < k → fs[j]? = some fr → readTraces fr.1.traces c = some w →
      Double.gt (getDoubleValue p w) level = false)
    (hat : ∃ fr w, fs[k]? = some fr ∧ readTraces fr.1.traces c = some w ∧
      Double.gt (getDoubleValue p w) level = true) :
    (h.plotsMap.length ≤ 10 → ∀ n, ∃ hn, processFrames h (fs.take n) = some hn) ∧
    ∀ n hn, processFrames h (fs.take n) = some hn → (hn.traceTriggered = true ↔ k < n) := by
  refine ⟨fun h10 n => processFrames_isSome _ h ?_ h10, fun n hn hrun =>
    processFrames_trigger_iff fs h c k p level hlen hun hc hlevel hpc hvis hbefore hat n hn
      hrun⟩
  intro h0
  rw [h0] at hpc
  exact absurd hpc (by simp)

/-- C5: in a RUN session, after the frame on which the trigger fired, STOP is requested
(viewer state STOP, state-change-ordered flag set) by the `ceil(0.9 * maxPoints)`-th frame
processed after it and by no earlier frame: with fewer post-trigger frames the viewer state
is still RUN and the flag clear (for `maxPoints = 100`: STOP on the 90th, not the 89th).
With one to ten plots the frames are all processed. -/
theorem C5_auto_stop (h : Handler) (f : Frame) (r : ReaderAnswers)
    (fs : List (Frame × ReaderAnswers))
    (hmp : h.traceSettings.maxPoints < 4294967296)
    (hun : h.traceTriggered = false) (hrun : h.viewerState = state.RUN)
    (hflag : h.stateChangeOrdered = false) :
    (h.plotsMap ≠ [] → h.plotsMap.length ≤ 10 →
      ∃ hn, processFrames h ((f, r) :: fs) = some hn) ∧
    ∀ h1 hn, processFrame h f r = some h1 → h1.traceTriggered = true →
      processFrames h1 fs = some hn →
      (fs.length < (9 * h.traceSettings.maxPoints + 9) / 10 →
        hn.viewerState = state.RUN ∧ hn.stateChangeOrdered = false) ∧
      (fs.length = (9 * h.traceSettings.maxPoints + 9) / 10 →
        hn.viewerState = state.STOP ∧ hn.stateChangeOrdered = true) :=
  ⟨fun hne h10 => processFrames_isSome _ h hne h10, fun h1 hn hp hfire hps =>
    processFrames_auto_stop h h1 hn f r fs hmp hun hrun hflag hp hfire hps⟩

/-- C6: with no trigger channel configured (a negative 32-bit index, such as `-1`), the
frames of a session that starts untriggered leave `traceTriggered` false and request no
STOP (viewer state and state-change-ordered flag stay as they were), whatever the frames,
the visibility of the channels and the trigger level.  With one to ten plots the frames
are all processed. -/
theorem C6_no_trigger_channel (fs : List (Frame × ReaderAnswers)) (h : Handler)
    (hneg : h.traceSettings.triggerChannel < 0)
    (hmin : -2147483648 ≤ h.traceSettings.triggerChannel)
    (hun : h.traceTriggered = false) :
    (h.plotsMap ≠ [] → h.plotsMap.length ≤ 10 → ∃ hn, processFrames h fs = some hn) ∧
    ∀ hn, processFrames h fs = some hn →
      hn.traceTriggered = false ∧ hn.viewerState = h.viewerState ∧
        hn.stateChangeOrdered = h.stateChangeOrdered :=
  ⟨fun hne h10 => processFrames_isSome fs h hne h10, fun hn hp =>
    processFrames_no_trigger_channel fs h hn hneg hmin hun hp⟩

/-! ## The deferred commit -/

theorem fillActiveChannels_isSome :
    ∀ (plots : List Plot) (i : Nat) (a : List Bool), i + plots.length ≤ 32 →
      ∃ m, fillActiveChannels plots i a = some m := by
  intro plots
  induction plots with
  | nil => intro i a _; exact ⟨a, rfl⟩
  | cons plot rest ih =>
    intro i a hlen
    simp only [List.length_cons] at hlen
    unfold fillActiveChannels
    rw [if_pos (by omega), Nat.mod_eq_of_lt (by omega)]
    exact ih (i + 1) _ (by omega)

/-- What `commit` returns when a state change is ordered in RUN. -/
theorem commit_run_eq_some (h h1 : Handler) (r : ReaderAnswers)
    (hflag : h.stateChangeOrdered = true) (hrun : h.viewerState = state.RUN)
    (hc : commit h r = some h1) :
    ∃ activeChannels,
      fillActiveChannels h.plotsMap 0 (List.replicate 32 false) = some activeChannels ∧
      h1 = { h with
        errorFrameTimestamps := []
        errorFrameSinceLastPoint := 0
        calls := h.calls ++ [ReaderCall.startAcqusition activeChannels]
        time := if r.startAcqusition then Double.zero else h.time
        viewerState := if r.startAcqusition then state.RUN else state.STOP
        stateChangeOrdered := false } := by
  unfold commit at hc
  rw [if_pos hflag, if_pos hrun] at hc
  cases hm : fillActiveChannels h.plotsMap 0 (List.replicate 32 false) with
  | none =>
    rw [hm] at hc
    exact absurd hc (by simp)
  | some m =>
    rw [hm] at hc
    simp only [Option.some.injEq] at hc
    refine ⟨m, rfl, ?_⟩
    rw [← hc]
    cases r.startAcqusition <;> simp [hrun]

/-- What `commit` returns when a state change is ordered in STOP. -/
theorem commit_stop_eq (h : Handler) (r : ReaderAnswers)
    (hflag : h.stateChangeOrdered = true) (hstop : h.viewerState = state.STOP) :
    commit h r = some { h with
      calls := h.calls ++ [ReaderCall.stopAcqusition]
      traceTriggered := false
      stateChangeOrdered := false } := by
  unfold commit
  have hne : ¬ h.viewerState = state.RUN := by rw [hstop]; decide
  rw [if_pos hflag, if_neg hne]

theorem commit_isSome (h : Handler) (r : ReaderAnswers) (hlen : h.plotsMap.length ≤ 32) :
    ∃ h1, commit h r = some h1 := by
  unfold commit
  by_cases hflag : h.stateChangeOrdered = true
  · rw [if_pos hflag]
    by_cases hrun : h.viewerState = state.RUN
    · rw [if_pos hrun]
      obtain ⟨m, hm⟩ := fillActiveChannels_isSome h.plotsMap 0 (List.replicate 32 false)
        (by omega)
      rw [hm]
      exact ⟨_, rfl⟩
    · rw [if_neg hrun]
      exact ⟨_, rfl⟩
  · rw [if_neg hflag]
    exact ⟨_, rfl⟩

/-- C8: committing into RUN calls `startAcqusition` exactly once and makes no other call;
on success the viewer state stays RUN and the elapsed time becomes zero; on failure the
viewer state reverts to STOP and the elapsed time is left as it was; in both cases the
error window is empty afterwards.  With at most 32 plots the commit does return. -/
theorem C8_commit_into_run (h : Handler) (r : ReaderAnswers)
    (hflag : h.stateChangeOrdered = true) (hrun : h.viewerState = state.RUN) :
    (h.plotsMap.length ≤ 32 → ∃ h1, commit h r = some h1) ∧
    ∀ h1, commit h r = some h1 →
      (∃ activeChannels, h1.calls = h.calls ++ [ReaderCall.startAcqusition activeChannels]) ∧
      (r.startAcqusition = true → h1.viewerState = state.RUN ∧ h1.time = Double.zero) ∧
      (r.startAcqusition = false → h1.viewerState = state.STOP ∧ h1.time = h.time) ∧
      h1.errorFrameTimestamps = [] := by
  refine ⟨commit_isSome h r, fun h1 hc => ?_⟩
  obtain ⟨m, _, hh⟩ := commit_run_eq_some h h1 r hflag hrun hc
  rw [hh]
  refine ⟨⟨m, rfl⟩, fun hs => ?_, fun hs => ?_, rfl⟩
  · simp [hs]
  · simp [hs]

/-- C9: whenever the commit step runs with the state-change-ordered flag set, the flag is
false afterwards: committing into RUN with a successful start, committing into RUN with a
failed start, and committing into STOP.  With at most 32 plots the commit does return. -/
theorem C9_flag_cleared (h : Handler) (r : ReaderAnswers)
    (hflag : h.stateChangeOrdered = true) :
    (h.plotsMap.length ≤ 32 → ∃ h1, commit h r = some h1) ∧
    ∀ h1, commit h r = some h1 → h1.stateChangeOrdered = false := by
  refine ⟨commit_isSome h r, fun h1 hc => ?_⟩
  cases hv : h.viewerState with
  | RUN =>
    obtain ⟨m, _, hh⟩ := commit_run_eq_some h h1 r hflag hv hc
    rw [hh]
  | STOP =>
    rw [commit_stop_eq h r hflag hv] at hc
    injection hc with hc
    rw [← hc]

/-- C7, as the code has it: committing into RUN leaves `traceTriggered` and `cnt` as they
were; it is the commit into STOP that clears `traceTriggered` (leaving `cnt`), so that a
RUN ordered after a committed STOP starts untriggered. -/
theorem C7_trigger_status_at_commit (h : Handler) (r : ReaderAnswers)
    (hflag : h.stateChangeOrdered = true) :
    (h.viewerState = state.RUN → ∀ h1, commit h r = some h1 →
      h1.traceTriggered = h.traceTriggered ∧ h1.cnt = h.cnt) ∧
    (h.viewerState = state.STOP → ∃ h1, commit h r = some h1 ∧
      h1.traceTriggered = false ∧ h1.cnt = h.cnt ∧
      ∀ r2 h2, commit { h1 with viewerState := state.RUN, stateChangeOrdered := true } r2
          = some h2 → h2.traceTriggered = false) := by
  constructor
  · intro hrun h1 hc
    obtain ⟨m, _, hh⟩ := commit_run_eq_some h h1 r hflag hrun hc
    rw [hh]
    exact ⟨rfl, rfl⟩
  · intro hstop
    refine ⟨_, commit_stop_eq h r hflag hstop, rfl, rfl, fun r2 h2 hc2 => ?_⟩
    obtain ⟨m, _, hh⟩ := commit_run_eq_some _ h2 r2 rfl rfl hc2
    rw [hh]

/-! ## Concrete runs -/

set_option exponentiation.threshold 5000 in
set_option maxRecDepth 4000 in
/-- C4 at a concrete frame on which the trigger fires (channel 0 visible, raw word `0xAA`,
level `0.5`, five time units elapsed, delta `1.0`): the loop body sets `traceTriggered`,
`cnt = 0` and the local `timestamp = 0`, and the frame ends with the elapsed time at
`6.0`, not at zero. -/
theorem C4_time_not_reset :
    (channelStep (sampleSettings 0) (sampleFrame 0xAA).traces (Double.ofNat 6)
        (digitalPlot "CH0" true) (loopStart (sampleHandler 0) (sampleFrame 0xAA))).map
      (fun pv => pv.2)
      = some { i := 1, timestamp := Double.zero, traceTriggered := true, cnt := 0 } ∧
    (processFrame (sampleHandler 0) (sampleFrame 0xAA) (sampleAnswers true 0xAA true)).map
      (fun h => (h.traceTriggered, h.cnt, h.time)) = some (true, 1, Double.ofNat 6) ∧
    Double.ofNat 6 ≠ Double.zero := by
  decide

set_option exponentiation.threshold 5000 in
set_option maxRecDepth 4000 in
/-- Counterexample to C7: a commit into RUN (flag set, viewer state RUN) of a handler
that is triggered with `cnt = 91` leaves it triggered with `cnt = 91`. -/
theorem C7_counterexample :
    samplePending.stateChangeOrdered = true ∧ samplePending.viewerState = state.RUN ∧
    (commit samplePending (sampleAnswers true 0 true)).map
      (fun h => (h.traceTriggered, h.cnt)) = some (true, 91) := by
  decide

/-! ## An invalid reader -/

theorem processFrame_calls (h h1 : Handler) (f : Frame) (r : ReaderAnswers)
    (hp : processFrame h f r = some h1) :
    h1.calls = h.calls ++ [ReaderCall.getTraceIndicators, ReaderCall.getTraceIndicators] := by
  unfold processFrame at hp
  cases hm : h.plotsMap with
  | nil => simp [hm] at hp
  | cons first rest =>
    simp only [hm] at hp
    cases hl : channelLoop h.traceSettings f.traces (Double.add h.time f.timestamp)
        (first :: rest) (loopStart h f) with
    | none => simp [hl] at hp
    | some pv =>
      simp only [hl, Option.some.injEq] at hp
      rw [← hp]

/-- An iteration that starts in RUN with the reader invalid. -/
theorem iteration_invalid_reader (h : Handler) (r : ReaderAnswers)
    (hrun : h.viewerState = state.RUN) (hinv : r.isValid = false) :
    (r.readTrace = none → iteration h r = some (stopRequested h)) ∧
    (∀ f h1, r.readTrace = some f → iteration h r = some h1 →
      (∃ h4, processFrame (stopRequested h) f r = some h4 ∧ commit h4 r = some h1) ∧
      h1.time = Double.add h.time f.timestamp ∧
      h1.viewerState = state.STOP ∧ h1.stateChangeOrdered = false ∧
      h1.calls = h.calls ++ [ReaderCall.isValid, ReaderCall.readTrace,
        ReaderCall.getTraceIndicators, ReaderCall.getTraceIndicators,
        ReaderCall.stopAcqusition]) := by
  have hiter : iteration h r =
      match r.readTrace with
      | none => some (stopRequested h)
      | some f =>
        match processFrame (stopRequested h) f r with
        | none => none
        | some h4 => commit h4 r := by
    unfold iteration stopRequested
    rw [if_pos hrun]
    simp [hinv]
  constructor
  · intro hnone
    rw [hiter, hnone]
  · intro f h1 hsome hit
    rw [hiter, hsome] at hit
    simp only [] at hit
    cases hp : processFrame (stopRequested h) f r with
    | none => simp [hp] at hit
    | some h4 =>
      simp only [hp] at hit
      obtain ⟨plots, v, _, _, _, htime, _, _, hvs, hfl⟩ := processFrame_eq_some _ h4 f r hp
      have hcalls := processFrame_calls _ h4 f r hp
      have hvs4 : h4.viewerState = state.STOP := by
        rw [hvs]
        simp [stopRequested]
      have hfl4 : h4.stateChangeOrdered = true := by
        rw [hfl]
        simp [stopRequested]
      rw [commit_stop_eq h4 r hfl4 hvs4] at hit
      injection hit with hit
      refine ⟨⟨h4, rfl, ?_⟩, ?_, ?_, ?_, ?_⟩
      · rw [commit_stop_eq h4 r hfl4 hvs4, hit]
      · rw [← hit]
        exact htime
      · rw [← hit]
        exact hvs4
      · rw [← hit]
      · rw [← hit]
        show h4.calls ++ [ReaderCall.stopAcqusition] = _
        rw [hcalls]
        simp [stopRequested]

/-- With at least one and at most ten plots, an iteration of the loop returns. -/
theorem iteration_isSome (h : Handler) (r : ReaderAnswers) (hne : h.plotsMap ≠ [])
    (hlen : h.plotsMap.length ≤ 10) : ∃ h1, iteration h r = some h1 := by
  unfold iteration
  by_cases hrun : h.viewerState = state.RUN
  · rw [if_pos hrun]
    cases hread : r.readTrace with
    | none => exact ⟨_, rfl⟩
    | some f =>
      simp only []
      obtain ⟨h4, hp, hl4⟩ := processFrame_isSome
        { (if !r.isValid then
            { { h with calls := h.calls ++ [ReaderCall.isValid] } with
              viewerState := state.STOP, stateChangeOrdered := true }
          else { h with calls := h.calls ++ [ReaderCall.isValid] }) with
          calls := (if !r.isValid then
            { { h with calls := h.calls ++ [ReaderCall.isValid] } with
              viewerState := state.STOP, stateChangeOrdered := true }
          else { h with calls := h.calls ++ [ReaderCall.isValid] }).calls
            ++ [ReaderCall.readTrace] } f r
        (by cases r.isValid <;> exact hne) (by cases r.isValid <;> exact hlen)
      rw [hp]
      have hl5 : h4.plotsMap.length = h.plotsMap.length := by
        rw [hl4]
        cases r.isValid <;> rfl
      exact commit_isSome h4 r (by omega)
  · rw [if_neg hrun]
    exact commit_isSome h r (by omega)

/-- C10, as the code has it: in an iteration that starts in RUN with the reader invalid,
STOP is requested first (viewer state STOP, flag set) and `readTrace` is called all the
same.  Without a frame the iteration ends there: elapsed time and buffers are as before.
With a frame, the frame is processed from the state in which STOP is requested (the
elapsed time advances by its delta) and the STOP is committed in the same iteration.
With one to ten plots the iteration does return. -/
theorem C10_invalid_reader (h : Handler) (r : ReaderAnswers)
    (hrun : h.viewerState = state.RUN) (hinv : r.isValid = false) :
    (h.plotsMap ≠ [] → h.plotsMap.length ≤ 10 → ∃ h1, iteration h r = some h1) ∧
    (r.readTrace = none → iteration h r = some (stopRequested h)) ∧
    (∀ f h1, r.readTrace = some f → iteration h r = some h1 →
      (∃ h4, processFrame (stopRequested h) f r = some h4 ∧ commit h4 r = some h1) ∧
      h1.time = Double.add h.time f.timestamp ∧
      h1.viewerState = state.STOP ∧ h1.stateChangeOrdered = false ∧
      h1.calls = h.calls ++ [ReaderCall.isValid, ReaderCall.readTrace,
        ReaderCall.getTraceIndicators, ReaderCall.getTraceIndicators,
        ReaderCall.stopAcqusition]) :=
  ⟨iteration_isSome h r, iteration_invalid_reader h r hrun hinv⟩

set_option exponentiation.threshold 5000 in
set_option maxRecDepth 4000 in
/-- Counterexample to C10: an iteration that starts in RUN with the reader invalid and a
frame available calls `readTrace` and processes the frame: the elapsed time goes from `5.0`
to `6.0` and both visible plots receive a point. -/
theorem C10_counterexample :
    (sampleHandler 0).viewerState = state.RUN ∧
    (sampleAnswers false 0 true).isValid = false ∧
    (sampleHandler 0).time = Double.ofNat 5 ∧
    (iteration (sampleHandler 0) (sampleAnswers false 0 true)).map
      (fun h => (h.viewerState, h.time, h.plotsMap.map (fun p => p.timePoints), h.calls))
      = some (state.STOP, Double.ofNat 6, [[Double.ofNat 6], [], [Double.ofNat 6]],
          [ReaderCall.isValid, ReaderCall.readTrace, ReaderCall.getTraceIndicators,
            ReaderCall.getTraceIndicators, ReaderCall.stopAcqusition]) := by
  decide

/-! ## Witnesses -/

set_option exponentiation.threshold 5000 in
set_option maxRecDepth 4000 in
/-- Witness of C3: in `sampleSession` the trigger channel 0 carries the sentinel on frame 2
only; after three frames the handler is triggered. -/
theorem C3_trigger_fires_once_witness :
    (sampleHandler 0).traceTriggered = false ∧
    processFrames (sampleHandler 0) (sampleSession.take 3) = some (sampleSessionAfter 3) ∧
    ((sampleSessionAfter 3).traceTriggered = true ↔ 2 < 3) :=
  ⟨rfl, by decide,
    (C3_trigger_fires_once sampleSession (sampleHandler 0) 0 2 (digitalPlot "CH0" true) half
      (by decide) rfl rfl rfl rfl rfl
      (by
        intro j fr w hj hfr hraw
        have hj2 : j = 0 ∨ j = 1 := by omega
        rcases hj2 with rfl | rfl
        · simp only [sampleSession, List.getElem?_cons_zero, Option.some.injEq] at hfr
          subst hfr
          simp only [readTraces, sampleFrame] at hraw
          simp at hraw
          subst hraw
          decide
        · simp only [sampleSession, List.getElem?_cons_succ, List.getElem?_cons_zero,
            Option.some.injEq] at hfr
          subst hfr
          simp only [readTraces, sampleFrame] at hraw
          simp at hraw
          subst hraw
          decide)
      ⟨(sampleFrame 0xAA, sampleAnswers true 0xAA true), 0xAA, by decide, by decide,
        by decide⟩).2
      3 (sampleSessionAfter 3) (by decide)⟩

set_option exponentiation.threshold 5000 in
set_option maxRecDepth 4000 in
/-- Witness of C5 for `maxPoints = 100`: STOP is requested after the 90th frame that follows
the trigger frame, not after the 89th. -/
theorem C5_auto_stop_witness :
    processFrame (sampleHandler 0) (sampleFrame 0xAA) (sampleAnswers true 0xAA true)
      = some sampleFired ∧
    ((samplePostTrigger 90).viewerState = state.STOP ∧
      (samplePostTrigger 90).stateChangeOrdered = true) ∧
    ((samplePostTrigger 89).viewerState = state.RUN ∧
      (samplePostTrigger 89).stateChangeOrdered = false) :=
  ⟨by decide,
    ((C5_auto_stop (sampleHandler 0) (sampleFrame 0xAA) (sampleAnswers true 0xAA true)
      (List.replicate 90 (sampleFrame 0, sampleAnswers true 0 true))
      (by decide) rfl rfl rfl).2 sampleFired (samplePostTrigger 90)
      (by decide) (by decide) (by decide)).2 (by decide),
    ((C5_auto_stop (sampleHandler 0) (sampleFrame 0xAA) (sampleAnswers true 0xAA true)
      (List.replicate 89 (sampleFrame 0, sampleAnswers true 0 true))
      (by decide) rfl rfl rfl).2 sampleFired (samplePostTrigger 89)
      (by decide) (by decide) (by decide)).1 (by decide)⟩

set_option exponentiation.threshold 5000 in
set_option maxRecDepth 4000 in
/-- Witness of C6: with trigger channel `-1` the frames of `sampleSession`, sentinel
included, leave the handler untriggered and in RUN. -/
theorem C6_no_trigger_channel_witness :
    (sampleHandler (-1)).traceSettings.triggerChannel < 0 ∧
    processFrames (sampleHandler (-1)) sampleSession = some sampleFreeRun ∧
    (sampleFreeRun.traceTriggered = false ∧
      sampleFreeRun.viewerState = (sampleHandler (-1)).viewerState ∧
      sampleFreeRun.stateChangeOrdered = (sampleHandler (-1)).stateChangeOrdered) :=
  ⟨by decide, by decide,
    (C6_no_trigger_channel sampleSession (sampleHandler (-1)) (by decide) (by decide)
      rfl).2 sampleFreeRun (by decide)⟩

set_option exponentiation.threshold 5000 in
set_option maxRecDepth 4000 in
/-- Witness of the amended C7: the commit of `samplePending` into RUN. -/
theorem C7_trigger_status_at_commit_witness :
    samplePending.stateChangeOrdered = true ∧ samplePending.viewerState = state.RUN ∧
    commit samplePending (sampleAnswers true 0 true) = some sampleCommitted ∧
    (sampleCommitted.traceTriggered = samplePending.traceTriggered ∧
      sampleCommitted.cnt = samplePending.cnt) :=
  ⟨rfl, rfl, by decide,
    (C7_trigger_status_at_commit samplePending (sampleAnswers true 0 true) rfl).1 rfl
      sampleCommitted (by decide)⟩

set_option exponentiation.threshold 5000 in
set_option maxRecDepth 4000 in
/-- Witness of C8: the commit of `samplePending` into RUN with a successful start. -/
theorem C8_commit_into_run_witness :
    samplePending.stateChangeOrdered = true ∧ samplePending.viewerState = state.RUN ∧
    commit samplePending (sampleAnswers true 0 true) = some sampleCommitted ∧
    (sampleCommitted.viewerState = state.RUN ∧ sampleCommitted.time = Double.zero) ∧
    sampleCommitted.errorFrameTimestamps = [] :=
  ⟨rfl, rfl, by decide,
    ((C8_commit_into_run samplePending (sampleAnswers true 0 true) rfl rfl).2
      sampleCommitted (by decide)).2.1 rfl,
    ((C8_commit_into_run samplePending (sampleAnswers true 0 true) rfl rfl).2
      sampleCommitted (by decide)).2.2.2⟩

set_option exponentiation.threshold 5000 in
set_option maxRecDepth 4000 in
/-- Witness of C9: the commit of `samplePending` clears the flag. -/
theorem C9_flag_cleared_witness :
    samplePending.stateChangeOrdered = true ∧
    commit samplePending (sampleAnswers true 0 true) = some sampleCommitted ∧
    sampleCommitted.stateChangeOrdered = false :=
  ⟨rfl, by decide,
    (C9_flag_cleared samplePending (sampleAnswers true 0 true) rfl).2 sampleCommitted
      (by decide)⟩

set_option exponentiation.threshold 5000 in
set_option maxRecDepth 4000 in
/-- Witness of the amended C10: an iteration of `sampleHandler 0` with the reader invalid
and a frame available. -/
theorem C10_invalid_reader_witness :
    (sampleHandler 0).viewerState = state.RUN ∧
    (sampleAnswers false 0 true).isValid = false ∧
    iteration (sampleHandler 0) (sampleAnswers false 0 true) = some sampleAfterInvalid ∧
    sampleAfterInvalid.time = Double.add (sampleHandler 0).time (sampleFrame 0).timestamp ∧
    sampleAfterInvalid.viewerState = state.STOP :=
  ⟨rfl, rfl, by decide,
    ((C10_invalid_reader (sampleHandler 0) (sampleAnswers false 0 true) rfl rfl).2.2
      (sampleFrame 0) sampleAfterInvalid rfl (by decide)).2.1,
    ((C10_invalid_reader (sampleHandler 0) (sampleAnswers false 0 true) rfl rfl).2.2
      (sampleFrame 0) sampleAfterInvalid rfl (by decide)).2.2.1⟩

/-! ## What a frame appends -/

/-- The loop over the plots, plot by plot: a hidden plot is left as it is; a visible plot
at list position `j` receives the value decoded from `traces[v.i + j]` and the time. -/
theorem channelLoop_plots (S : Settings) (traces : List Nat) (time : Double) :
    ∀ (plots plots1 : List Plot) (v v1 : LoopVars),
      channelLoop S traces time plots v = some (plots1, v1) →
      v.i + plots.length < 4294967296 →
      plots1.length = plots.length ∧
      ∀ j plot, plots[j]? = some plot →
        (plot.visibility = false → plots1[j]? = some plot) ∧
        (plot.visibility = true → ∃ raw, readTraces traces (v.i + j) = some raw ∧
          plots1[j]? = some ((plot.addPoint (getDoubleValue plot raw)).addTimePoint time)) := by
  intro plots
  induction plots with
  | nil =>
    intro plots1 v v1 hl _
    simp only [channelLoop, Option.some.injEq, Prod.mk.injEq] at hl
    rw [← hl.1]
    exact ⟨rfl, fun j plot hj => by simp at hj⟩
  | cons plot rest ih =>
    intro plots1 v v2 hl hlen
    obtain ⟨plot1, v1, rest1, hs, hr, hp1⟩ :=
      channelLoop_cons_eq_some S traces time _ _ _ _ _ hl
    simp only [List.length_cons] at hlen
    have hmod : (v.i + 1) % 4294967296 = v.i + 1 := Nat.mod_eq_of_lt (by omega)
    have hi1 : v1.i = v.i + 1 := by
      rcases channelStep_eq_some S traces time _ _ _ _ hs with ⟨_, _, hv⟩ | ⟨_, raw, _, _, hv⟩
      · rw [hv]; exact hmod
      · rcases hv with ⟨_, _, _, hv⟩ | ⟨_, hv⟩ <;> (rw [hv]; exact hmod)
    obtain ⟨hlen1, hrest⟩ := ih rest1 v1 v2 hr (by omega)
    subst hp1
    refine ⟨by simp [hlen1], fun j q hj => ?_⟩
    cases j with
    | zero =>
      simp only [List.getElem?_cons_zero, Option.some.injEq] at hj
      subst hj
      rcases channelStep_eq_some S traces time _ _ _ _ hs with
        ⟨hvis, hp, _⟩ | ⟨hvis, raw, hraw, hp, _⟩
      · refine ⟨fun _ => by simp [hp], fun ht => ?_⟩
        rw [hvis] at ht
        exact absurd ht (by decide)
      · refine ⟨fun hf => ?_, fun _ => ⟨raw, hraw, by simp [hp]⟩⟩
        rw [hvis] at hf
        exact absurd hf (by decide)
    | succ j =>
      simp only [List.getElem?_cons_succ] at hj ⊢
      obtain ⟨hh, hv⟩ := hrest j q hj
      refine ⟨hh, fun ht => ?_⟩
      obtain ⟨raw, hraw, hq⟩ := hv ht
      refine ⟨raw, ?_, hq⟩
      rw [← hraw, hi1]
      congr 1
      omega

/-- C16: processing one frame leaves the buffers of every hidden channel unchanged and
appends to the buffers of every visible channel exactly one pair: the value
`getDoubleValue` gives for the channel and the raw word of its own iteration position `p`
(hidden channels advance the cursor too), and the running time, which is the previous
elapsed time plus the timestamp delta of the frame.  With one to ten plots the frame is
processed to the end. -/
theorem C16_frame_appends (h : Handler) (f : Frame) (r : ReaderAnswers)
    (hlen : h.plotsMap.length < 4294967296) :
    (h.plotsMap ≠ [] → h.plotsMap.length ≤ 10 → ∃ h1, processFrame h f r = some h1) ∧
    ∀ h1, processFrame h f r = some h1 →
      h1.time = Double.add h.time f.timestamp ∧
      h1.plotsMap.length = h.plotsMap.length ∧
      ∀ p plot, h.plotsMap[p]? = some plot →
        (plot.visibility = false → h1.plotsMap[p]? = some plot) ∧
        (plot.visibility = true → ∃ raw, readTraces f.traces p = some raw ∧
          h1.plotsMap[p]? = some
            ((plot.addPoint (getDoubleValue plot raw)).addTimePoint h1.time)) := by
  refine ⟨fun hne h10 => ?_, fun h1 hp => ?_⟩
  · obtain ⟨h1, hp, _⟩ := processFrame_isSome h f r hne h10
    exact ⟨h1, hp⟩
  · obtain ⟨plots, v, hl, hpl, _, htime, _⟩ := processFrame_eq_some h h1 f r hp
    obtain ⟨hlen1, hplots⟩ := channelLoop_plots _ _ _ _ _ _ _ hl
      (by simp only [loopStart]; omega)
    rw [hpl, htime]
    refine ⟨rfl, hlen1, fun p plot hpp => ?_⟩
    have := hplots p plot hpp
    simpa only [loopStart, Nat.zero_add] using this

/-- C20: if the plot at the configured trigger index is hidden, processing a frame leaves
`traceTriggered` as it was, whatever the raw words and the trigger level; and whenever a
frame sets `traceTriggered`, the plot at the trigger index is visible and it is its own
decoded value that is above the level (a visible plot elsewhere does not fire). -/
theorem C20_hidden_trigger_channel (h h1 : Handler) (f : Frame) (r : ReaderAnswers)
    (hlen : h.plotsMap.length < 4294967296)
    (hp : processFrame h f r = some h1) :
    (∀ p, h.plotsMap[castU32 h.traceSettings.triggerChannel]? = some p →
      p.visibility = false → h1.traceTriggered = h.traceTriggered) ∧
    (h.traceTriggered = false → h1.traceTriggered = true →
      ∃ p w, h.plotsMap[castU32 h.traceSettings.triggerChannel]? = some p ∧
        p.visibility = true ∧
        readTraces f.traces (castU32 h.traceSettings.triggerChannel) = some w ∧
        Double.gt (getDoubleValue p w) h.traceSettings.triggerLevel = true) := by
  obtain ⟨plots, v, hl, _, _, _, htr, _⟩ := processFrame_eq_some h h1 f r hp
  have hfire : h.traceTriggered = false → h1.traceTriggered = true →
      ∃ p w, h.plotsMap[castU32 h.traceSettings.triggerChannel]? = some p ∧
        p.visibility = true ∧
        readTraces f.traces (castU32 h.traceSettings.triggerChannel) = some w ∧
        Double.gt (getDoubleValue p w) h.traceSettings.triggerLevel = true := by
    intro hun ht
    have hiff := (channelLoop_fires_iff _ _ _ _ _ _ _ hl hun
      (by simp only [loopStart]; omega)).1
    rw [htr] at ht
    obtain ⟨j, p, w, hj, hjc, hvis, hraw, hgt⟩ := hiff.1 ht
    simp only [loopStart, Nat.zero_add] at hjc hraw
    subst hjc
    exact ⟨p, w, hj, hvis, hraw, hgt⟩
  refine ⟨fun p hpc hhid => ?_, hfire⟩
  cases hb : h.traceTriggered with
  | true => exact processFrame_keeps_triggered h h1 f r hp hb
  | false =>
    cases hb1 : h1.traceTriggered with
    | false => rfl
    | true =>
      obtain ⟨q, w, hq, hvis, _⟩ := hfire hb hb1
      rw [hpc] at hq
      injection hq with hq
      rw [← hq, hhid] at hvis
      exact absurd hvis (by decide)

/-! ## The active-channel mask -/

/-- The loop filling `activeChannels` from index `i` on: it stays within the array, keeps
its length and changes only the entries `i .. i + plots.length - 1`, which become the
visibilities of the plots in order. -/
theorem fillActiveChannels_spec :
    ∀ (plots : List Plot) (i : Nat) (a a1 : List Bool),
      fillActiveChannels plots i a = some a1 → i ≤ 32 →
      i + plots.length ≤ 32 ∧ a1.length = a.length ∧
      (∀ p, p < i → a1[p]? = a[p]?) ∧
      (∀ j plot, plots[j]? = some plot → i + j < a.length →
        a1[i + j]? = some plot.visibility) ∧
      (∀ p, i + plots.length ≤ p → a1[p]? = a[p]?) := by
  intro plots
  induction plots with
  | nil =>
    intro i a a1 hf hi
    simp only [fillActiveChannels, Option.some.injEq] at hf
    subst hf
    exact ⟨by simpa using hi, rfl, fun _ _ => rfl, fun j plot hj => by simp at hj,
      fun _ _ => rfl⟩
  | cons plot rest ih =>
    intro i a a1 hf hi
    unfold fillActiveChannels at hf
    by_cases h32 : i < 32
    · rw [if_pos h32, Nat.mod_eq_of_lt (by omega)] at hf
      obtain ⟨hlen, hl1, hlow, hmid, hhigh⟩ := ih (i + 1) _ a1 hf (by omega)
      simp only [List.length_set] at hl1 hmid
      refine ⟨by simp only [List.length_cons]; omega, hl1, fun p hp => ?_,
        fun j q hj hja => ?_, fun p hp => ?_⟩
      · rw [hlow p (by omega), List.getElem?_set_ne (by omega)]
      · cases j with
        | zero =>
          simp only [List.getElem?_cons_zero, Option.some.injEq] at hj
          subst hj
          rw [Nat.add_zero] at hja ⊢
          rw [hlow i (by omega), List.getElem?_set_eq_of_lt _ hja]
        | succ j =>
          simp only [List.getElem?_cons_succ] at hj
          have := hmid j q hj (by omega)
          rw [← this]
          congr 1
          omega
      · simp only [List.length_cons] at hp
        rw [hhigh p (by omega), List.getElem?_set_ne (by omega)]
    · rw [if_neg h32] at hf
      exact absurd hf (by simp)

/-- C14: committing into RUN calls `startAcqusition` with a mask of 32 booleans whose entry
at position `p` is the visibility of the `p`-th plot in iteration order and whose entries
beyond the last plot are false; with every plot hidden the mask is all false, and the call
is made all the same.  With at most 32 plots the commit does return. -/
theorem C14_active_channel_mask (h : Handler) (r : ReaderAnswers)
    (hflag : h.stateChangeOrdered = true) (hrun : h.viewerState = state.RUN) :
    (h.plotsMap.length ≤ 32 → ∃ h1, commit h r = some h1) ∧
    ∀ h1, commit h r = some h1 →
      ∃ mask : List Bool, h1.calls = h.calls ++ [ReaderCall.startAcqusition mask] ∧
        mask.length = 32 ∧
        (∀ (p : Nat) (plot : Plot), h.plotsMap[p]? = some plot →
          mask[p]? = some plot.visibility) ∧
        (∀ p : Nat, h.plotsMap.length ≤ p → p < 32 → mask[p]? = some false) ∧
        ((∀ plot ∈ h.plotsMap, plot.visibility = false) → mask = List.replicate 32 false) := by
  refine ⟨commit_isSome h r, fun h1 hc => ?_⟩
  obtain ⟨mask, hm, hh⟩ := commit_run_eq_some h h1 r hflag hrun hc
  obtain ⟨hlen, hl1, _, hmid, hhigh⟩ :=
    fillActiveChannels_spec h.plotsMap 0 _ mask hm (by decide)
  simp only [List.length_replicate, Nat.zero_add] at hlen hl1 hmid hhigh
  have hvis : ∀ (p : Nat) (plot : Plot), h.plotsMap[p]? = some plot →
      mask[p]? = some plot.visibility := by
    intro p plot hp
    have hlt : p < h.plotsMap.length := by
      rcases Nat.lt_or_ge p h.plotsMap.length with hlt | hge
      · exact hlt
      · rw [List.getElem?_eq_none hge] at hp
        exact absurd hp (by simp)
    exact hmid p plot hp (by omega)
  have hfalse : ∀ p : Nat, h.plotsMap.length ≤ p → p < 32 → mask[p]? = some false := by
    intro p hp h32
    rw [hhigh p hp, List.getElem?_replicate, if_pos h32]
  refine ⟨mask, by rw [hh], hl1, hvis, hfalse, fun hall => ?_⟩
  apply List.ext_getElem?
  intro p
  rcases Nat.lt_or_ge p h.plotsMap.length with hlt | hge
  · have hp : h.plotsMap[p]? = some (h.plotsMap[p]) := List.getElem?_eq_getElem hlt
    rw [hvis p _ hp, hall _ (List.getElem_mem hlt), List.getElem?_replicate,
      if_pos (by omega)]
  · exact hhigh p hge

/-! ## Settings -/

/-- C15: `getSettings` after `setSettings s` returns `s`, field by field. -/
theorem C15_settings_round_trip (h : Handler) (s : Settings) :
    getSettings (setSettings h s) = s ∧
    (getSettings (setSettings h s)).coreFrequency = s.coreFrequency ∧
    (getSettings (setSettings h s)).tracePrescaler = s.tracePrescaler ∧
    (getSettings (setSettings h s)).maxPoints = s.maxPoints ∧
    (getSettings (setSettings h s)).triggerChannel = s.triggerChannel ∧
    (getSettings (setSettings h s)).triggerLevel = s.triggerLevel :=
  ⟨rfl, rfl, rfl, rfl, rfl, rfl⟩

/-! ## The error window -/

/-- What a frame does to the error window and to the remembered error counter; `first` is
the plot `plotsMap.begin()` points to. -/
theorem processFrame_window (h h1 : Handler) (f : Frame) (r : ReaderAnswers)
    (hp : processFrame h f r = some h1) :
    ∃ first rest, h.plotsMap = first :: rest ∧
      h1.errorFrameTimestamps =
        (if h.errorFrameSinceLastPoint ≠ r.errorFramesTotalAtCheck then
          h.errorFrameTimestamps ++ [Double.add h.time f.timestamp]
        else h.errorFrameTimestamps).dropWhile (fun t => Double.lt t first.getOldestValue) ∧
      h1.errorFrameSinceLastPoint = r.errorFramesTotalAtStore := by
  unfold processFrame at hp
  cases hm : h.plotsMap with
  | nil => simp [hm] at hp
  | cons first rest =>
    simp only [hm] at hp
    cases hl : channelLoop h.traceSettings f.traces (Double.add h.time f.timestamp)
        (first :: rest) (loopStart h f) with
    | none => simp [hl] at hp
    | some pv =>
      simp only [hl, Option.some.injEq] at hp
      refine ⟨first, rest, rfl, ?_⟩
      rw [← hp]
      exact ⟨rfl, rfl⟩

/-- C17: on a processed frame the error window receives exactly one entry, the running
time after this frame, if the error counter of the reader differs from the remembered
one, and none if it does not; the window is then pruned from the front against the oldest
timestamp of the first plot, and the remembered counter becomes the counter the reader
reports.  With one to ten plots the frame is processed to the end. -/
theorem C17_error_window_append (h : Handler) (f : Frame) (r : ReaderAnswers) :
    (h.plotsMap ≠ [] → h.plotsMap.length ≤ 10 → ∃ h1, processFrame h f r = some h1) ∧
    ∀ h1, processFrame h f r = some h1 →
      h1.time = Double.add h.time f.timestamp ∧
      h1.errorFrameSinceLastPoint = r.errorFramesTotalAtStore ∧
      ∃ first pushed, h.plotsMap.head? = some first ∧
        (h.errorFrameSinceLastPoint ≠ r.errorFramesTotalAtCheck →
          pushed = h.errorFrameTimestamps ++ [h1.time]) ∧
        (h.errorFrameSinceLastPoint = r.errorFramesTotalAtCheck →
          pushed = h.errorFrameTimestamps) ∧
        h1.errorFrameTimestamps
          = pushed.dropWhile (fun t => Double.lt t first.getOldestValue) := by
  refine ⟨fun hne h10 => ?_, fun h1 hp => ?_⟩
  · obtain ⟨h1, hp, _⟩ := processFrame_isSome h f r hne h10
    exact ⟨h1, hp⟩
  · obtain ⟨_, _, _, _, _, htime, _⟩ := processFrame_eq_some h h1 f r hp
    obtain ⟨first, rest, hm, hw, hc⟩ := processFrame_window h h1 f r hp
    refine ⟨htime, hc, first, _, by rw [hm]; rfl, ?_, ?_, hw⟩
    · intro hne
      rw [if_pos hne, htime]
    · intro heq
      rw [if_neg (not_not.2 heq)]

/-! ## The order of frame and commit within an iteration -/

theorem iteration_run_eq (h : Handler) (r : ReaderAnswers) (hrun : h.viewerState = state.RUN) :
    iteration h r =
      match r.readTrace with
      | none => some (polled h r.isValid)
      | some f =>
        match processFrame (polled h r.isValid) f r with
        | none => none
        | some h4 => commit h4 r := by
  unfold iteration polled stopRequested
  rw [if_pos hrun]
  cases r.isValid <;> cases r.readTrace <;> simp

/-- C18, as the code has it: the commit step comes last in an iteration.  An iteration that
begins with the state-change-ordered flag set in STOP processes no frame and commits (the
flag is cleared, elapsed time and buffers are as before).  One that begins with the flag
set in RUN reads a frame first: without a frame it ends with no commit and the flag still
set; with a frame, the frame is processed while the flag is set, and the commit that
clears the flag follows in the same iteration and keeps what the frame appended. -/
theorem C18_flag_and_frame_order (h : Handler) (r : ReaderAnswers)
    (hflag : h.stateChangeOrdered = true) :
    (h.viewerState = state.STOP →
      ∃ h1, iteration h r = some h1 ∧ h1.stateChangeOrdered = false ∧
        h1.time = h.time ∧ h1.plotsMap = h.plotsMap) ∧
    (h.viewerState = state.RUN → r.readTrace = none →
      ∃ h1, iteration h r = some h1 ∧ h1.stateChangeOrdered = true ∧
        h1.time = h.time ∧ h1.plotsMap = h.plotsMap) ∧
    (h.viewerState = state.RUN → ∀ f h1, r.readTrace = some f → iteration h r = some h1 →
      ∃ h4, processFrame (polled h r.isValid) f r = some h4 ∧ commit h4 r = some h1 ∧
        (polled h r.isValid).time = h.time ∧ (polled h r.isValid).plotsMap = h.plotsMap ∧
        h4.stateChangeOrdered = true ∧ h4.time = Double.add h.time f.timestamp ∧
        h1.stateChangeOrdered = false ∧ h1.plotsMap = h4.plotsMap) := by
  have hpolled : (polled h r.isValid).stateChangeOrdered = true ∧
      (polled h r.isValid).time = h.time ∧ (polled h r.isValid).plotsMap = h.plotsMap := by
    unfold polled stopRequested
    cases r.isValid <;> simp [hflag]
  refine ⟨fun hstop => ?_, fun hrun hnone => ?_, fun hrun f h1 hsome hit => ?_⟩
  · have hne : ¬ h.viewerState = state.RUN := by rw [hstop]; decide
    refine ⟨{ h with
      calls := h.calls ++ [ReaderCall.stopAcqusition]
      traceTriggered := false
      stateChangeOrdered := false }, ?_, rfl, rfl, rfl⟩
    unfold iteration
    rw [if_neg hne, commit_stop_eq h r hflag hstop]
  · rw [iteration_run_eq h r hrun, hnone]
    exact ⟨_, rfl, hpolled.1, hpolled.2.1, hpolled.2.2⟩
  · rw [iteration_run_eq h r hrun, hsome] at hit
    simp only [] at hit
    cases hp : processFrame (polled h r.isValid) f r with
    | none => simp [hp] at hit
    | some h4 =>
      simp only [hp] at hit
      obtain ⟨_, _, _, _, _, htime, _, _, _, hfl⟩ := processFrame_eq_some _ h4 f r hp
      have hfl4 : h4.stateChangeOrdered = true := by
        rw [hfl, hpolled.1]
        simp
      have hclear : h1.stateChangeOrdered = false ∧ h1.plotsMap = h4.plotsMap := by
        cases hv : h4.viewerState with
        | RUN =>
          obtain ⟨m, _, hh⟩ := commit_run_eq_some h4 h1 r hfl4 hv hit
          rw [hh]
          exact ⟨rfl, rfl⟩
        | STOP =>
          rw [commit_stop_eq h4 r hfl4 hv] at hit
          injection hit with hit
          rw [← hit]
          exact ⟨rfl, rfl⟩
      exact ⟨h4, rfl, hit, hpolled.2.1, hpolled.2.2, hfl4, by rw [htime, hpolled.2.1],
        hclear.1, hclear.2⟩

set_option exponentiation.threshold 5000 in
set_option maxRecDepth 4000 in
/-- Counterexample to C18: an iteration that begins in RUN with the flag set and a frame
available processes the frame before it commits: the visible plots receive the timestamp
`6.0`, and the calls of the frame (`getTraceIndicators`) precede `startAcqusition`. -/
theorem C18_counterexample :
    sampleOrdered.stateChangeOrdered = true ∧
    (sampleHandler 0).time = Double.ofNat 5 ∧
    (iteration sampleOrdered (sampleAnswers true 0 true)).map
      (fun h => (h.stateChangeOrdered, h.plotsMap.map (fun p => p.timePoints), h.calls))
      = some (false, [[Double.ofNat 6], [], [Double.ofNat 6]],
          [ReaderCall.isValid, ReaderCall.readTrace, ReaderCall.getTraceIndicators,
            ReaderCall.getTraceIndicators,
            ReaderCall.startAcqusition ([true, false, true] ++ List.replicate 29 false)]) := by
  decide

/-! ## The cursor and the ten raw words -/

namespace Double

theorem zero_eq : zero = fin 0 := by
  unfold zero ofInt
  rw [Int.zero_mul]

theorem ge_fin_fin (a b : Int) : ge (fin a) (fin b) = decide (b ≤ a) := by
  unfold ge lt
  simp only []
  by_cases h : b ≤ a
  · simp [h]
  · simp [h]
    omega

theorem ge_trans (a b c : Double) (h1 : ge a b = true) (h2 : ge b c = true) :
    ge a c = true := by
  cases a <;> cases b <;> cases c <;>
    simp only [ge, lt, Bool.not_true, Bool.not_false, Bool.false_eq_true, Bool.not_eq_true',
      decide_eq_false_iff_not, not_lt] at h1 h2 ⊢
  omega

set_option exponentiation.threshold 5000 in
theorem ilog2_zero : ilog2 0 = 0 := by decide

theorem ilog2_eq_log (n : Nat) : ilog2 n = Nat.log 2 n := by
  by_cases hc : n / 2 ^ 4096 < 2 ^ 4096
  · rcases Nat.eq_zero_or_pos n with h0 | h0
    · subst h0
      rw [ilog2_zero, Nat.log_zero_right]
    · have hb : n < 2 ^ 8192 := by
        have h2 : (2 : Nat) ^ 8192 = 2 ^ 4096 * 2 ^ 4096 := by rw [← pow_add]
        have hP : 0 < (2 : Nat) ^ 4096 := pow_pos (by decide) _
        rw [h2]
        exact (Nat.div_lt_iff_lt_mul hP).1 hc
      obtain ⟨h1, h2⟩ := ilog2_spec n h0 hb
      exact ((Nat.log_eq_iff (Or.inr ⟨by decide, Nat.pos_iff_ne_zero.1 h0⟩)).2 ⟨h1, h2⟩).symm
  · unfold ilog2
    rw [if_neg hc]
    exact Nat.log2_eq_log_two

theorem rne_mono (n n1 s : Nat) (h : n ≤ n1) : rne n s ≤ rne n1 s := by
  have hP : 0 < 2 ^ s := pow_pos (by decide) _
  have hq : n / 2 ^ s ≤ n1 / 2 ^ s := Nat.div_le_div_right h
  have hr : n / 2 ^ s = n1 / 2 ^ s → n % 2 ^ s ≤ n1 % 2 ^ s := by
    intro he
    have h1 := Nat.div_add_mod n (2 ^ s)
    have h2 := Nat.div_add_mod n1 (2 ^ s)
    rw [he] at h1
    generalize 2 ^ s * (n1 / 2 ^ s) = A at h1 h2
    omega
  have hm := Nat.mod_lt n hP
  have hm1 := Nat.mod_lt n1 hP
  unfold rne
  simp only []
  generalize 2 ^ s = P at *
  generalize n / P = q at *
  generalize n1 / P = q1 at *
  generalize n % P = r at *
  generalize n1 % P = r1 at *
  split_ifs <;> omega

theorem rne_grid (k s : Nat) : rne (k * 2 ^ s) s = k := by
  have hP : 0 < 2 ^ s := pow_pos (by decide) _
  unfold rne
  simp only [Nat.mul_mod_left, Nat.mul_div_cancel _ hP, Nat.mul_zero]
  rw [if_pos hP]

theorem roundMagnitude_zero : roundMagnitude 0 = 0 := by
  unfold roundMagnitude
  rw [rne_zero, Nat.zero_mul]

/-- A number on the grid of its own binade is left as it is. -/
theorem roundMagnitude_of_dvd (m : Nat) (h : 2 ^ (ilog2 m - 52) ∣ m) : roundMagnitude m = m := by
  obtain ⟨k, hk⟩ := h
  unfold roundMagnitude
  generalize ilog2 m - 52 = s at hk ⊢
  subst hk
  rw [Nat.mul_comm (2 ^ s) k, rne_grid]

theorem roundMagnitude_bounds (m : Nat) (h0 : 0 < m) :
    2 ^ Nat.log 2 m ≤ roundMagnitude m ∧ roundMagnitude m ≤ 2 ^ (Nat.log 2 m + 1) := by
  have hlo : 2 ^ Nat.log 2 m ≤ m := Nat.pow_log_le_self 2 (Nat.pos_iff_ne_zero.1 h0)
  have hhi : m < 2 ^ (Nat.log 2 m + 1) := Nat.lt_pow_succ_log_self (by decide) m
  unfold roundMagnitude
  rw [ilog2_eq_log]
  generalize Nat.log 2 m = L at hlo hhi ⊢
  have e1 : (2 : Nat) ^ L = 2 ^ (L - (L - 52)) * 2 ^ (L - 52) := by
    rw [← pow_add]
    congr 1
    omega
  have e2 : (2 : Nat) ^ (L + 1) = 2 ^ (L + 1 - (L - 52)) * 2 ^ (L - 52) := by
    rw [← pow_add]
    congr 1
    omega
  constructor
  · have := rne_mono _ _ (L - 52) hlo
    rw [e1, rne_grid] at this
    rw [e1]
    exact Nat.mul_le_mul_right _ this
  · have := rne_mono _ _ (L - 52) (Nat.le_of_lt hhi)
    rw [e2, rne_grid] at this
    rw [e2]
    exact Nat.mul_le_mul_right _ this

theorem roundMagnitude_mono (m m1 : Nat) (h : m ≤ m1) : roundMagnitude m ≤ roundMagnitude m1 := by
  rcases Nat.eq_zero_or_pos m with h0 | h0
  · subst h0
    rw [roundMagnitude_zero]
    exact Nat.zero_le _
  · have h1 : 0 < m1 := Nat.lt_of_lt_of_le h0 h
    have hL : Nat.log 2 m ≤ Nat.log 2 m1 := Nat.log_mono_right h
    rcases Nat.eq_or_lt_of_le hL with he | hlt
    · unfold roundMagnitude
      rw [ilog2_eq_log, ilog2_eq_log, he]
      exact Nat.mul_le_mul_right _ (rne_mono _ _ _ h)
    · have b1 := (roundMagnitude_bounds m h0).2
      have b2 := (roundMagnitude_bounds m1 h1).1
      have b3 : (2 : Nat) ^ (Nat.log 2 m + 1) ≤ 2 ^ Nat.log 2 m1 := two_pow_mono hlt
      omega

theorem roundMagnitude_idem (m : Nat) : roundMagnitude (roundMagnitude m) = roundMagnitude m := by
  rcases Nat.eq_zero_or_pos m with h0 | h0
  · subst h0
    rw [roundMagnitude_zero, roundMagnitude_zero]
  · obtain ⟨b1, b2⟩ := roundMagnitude_bounds m h0
    apply roundMagnitude_of_dvd
    rw [ilog2_eq_log]
    rcases Nat.eq_or_lt_of_le b2 with he | hlt
    · rw [he, Nat.log_pow (by decide)]
      exact pow_dvd_pow 2 (by omega)
    · have hpos : roundMagnitude m ≠ 0 := by
        have := pow_pos (by decide : 0 < 2) (Nat.log 2 m)
        omega
      have hlog : Nat.log 2 (roundMagnitude m) = Nat.log 2 m :=
        (Nat.log_eq_iff (Or.inr ⟨by decide, hpos⟩)).2 ⟨b1, hlt⟩
      rw [hlog]
      unfold roundMagnitude
      rw [ilog2_eq_log]
      exact Dvd.intro_left _ rfl

theorem round_natCast (m : Nat) : round (m : Int) = pack false (roundMagnitude m) := by
  unfold round roundMagnitude
  have hneg : decide ((m : Int) < 0) = false := by
    rw [decide_eq_false_iff_not]
    omega
  simp only [Int.natAbs_ofNat, hneg]

/-- What `isTime` says of a finite double. -/
theorem isTime_fin (n : Int) :
    isTime (fin n) = true ↔
      ∃ m : Nat, n = (m : Int) ∧ roundMagnitude m = m ∧ m < overflowAt := by
  unfold isTime
  simp only [Bool.and_eq_true, decide_eq_true_eq]
  constructor
  · rintro ⟨h0, hr⟩
    obtain ⟨m, rfl⟩ := Int.eq_ofNat_of_zero_le h0
    rw [round_natCast] at hr
    unfold pack at hr
    by_cases ho : overflowAt ≤ roundMagnitude m
    · rw [if_pos ho] at hr
      simp at hr
    · rw [if_neg ho] at hr
      simp only [Bool.false_eq_true, if_false, fin.injEq, Nat.cast_inj] at hr
      exact ⟨m, rfl, hr, by omega⟩
  · rintro ⟨m, rfl, hm, ho⟩
    refine ⟨by omega, ?_⟩
    rw [round_natCast]
    unfold pack
    rw [hm, if_neg (by omega)]
    simp

/-- Adding a non-negative delta to an elapsed time gives an elapsed time that is not
smaller. -/
theorem add_isTime (t d : Double) (ht : isTime t = true) (hd : ge d zero = true) :
    isTime (add t d) = true ∧ ge (add t d) t = true := by
  rw [zero_eq] at hd
  cases t with
  | nan => simp [isTime] at ht
  | ninf => simp [isTime] at ht
  | pinf =>
    cases d with
    | nan => simp [ge] at hd
    | ninf => simp [ge, lt] at hd
    | pinf => exact ⟨rfl, rfl⟩
    | fin b => exact ⟨rfl, rfl⟩
  | fin a =>
    cases d with
    | nan => simp [ge] at hd
    | ninf => simp [ge, lt] at hd
    | pinf => exact ⟨rfl, rfl⟩
    | fin b =>
      rw [ge_fin_fin, decide_eq_true_eq] at hd
      obtain ⟨m, rfl, hm, ho⟩ := (isTime_fin a).1 ht
      obtain ⟨k, rfl⟩ := Int.eq_ofNat_of_zero_le hd
      have hadd : add (fin (m : Int)) (fin (k : Int)) = pack false (roundMagnitude (m + k)) := by
        show round ((m : Int) + (k : Int)) = _
        rw [← Nat.cast_add, round_natCast]
      rw [hadd]
      have hmono : m ≤ roundMagnitude (m + k) := by
        have := roundMagnitude_mono m (m + k) (Nat.le_add_right m k)
        rw [hm] at this
        exact this
      unfold pack
      by_cases hov : overflowAt ≤ roundMagnitude (m + k)
      · rw [if_pos hov]
        exact ⟨rfl, rfl⟩
      · rw [if_neg hov]
        simp only [Bool.false_eq_true, if_false]
        refine ⟨(isTime_fin _).2 ⟨_, rfl, roundMagnitude_idem _, by omega⟩, ?_⟩
        rw [ge_fin_fin, decide_eq_true_eq]
        exact Nat.cast_le.2 hmono

end Double

/-! ## Timestamps in the buffers -/

theorem Double.ge_self_of_isTime (t : Double) (ht : Double.isTime t = true) :
    Double.ge t t = true := by
  cases t with
  | nan => simp [Double.isTime] at ht
  | ninf => simp [Double.isTime] at ht
  | pinf => rfl
  | fin a => rw [Double.ge_fin_fin]; simp

theorem Double.ge_of_not_lt (x y : Double) (h : Double.lt x y = false)
    (hx : Double.isNaN x = false) (hy : Double.isNaN y = false) : Double.ge x y = true := by
  cases x <;> cases y <;> simp_all [Double.ge, Double.lt, Double.isNaN]

theorem Double.isNaN_of_ge (x y : Double) (h : Double.ge x y = true) :
    Double.isNaN x = false ∧ Double.isNaN y = false := by
  cases x <;> cases y <;> simp_all [Double.ge, Double.isNaN]

/-- Appending a timestamp that no resident one exceeds keeps a buffer in order. -/
theorem bufferAppend_nonDecreasing (capacity : Nat) (buf : List Double) (t : Double)
    (hs : nonDecreasing buf) (hle : ∀ a ∈ buf, Double.ge t a = true) :
    nonDecreasing (bufferAppend capacity buf t) := by
  unfold bufferAppend nonDecreasing
  refine List.Pairwise.sublist (List.drop_sublist _ _) ?_
  rw [List.pairwise_append]
  refine ⟨hs, List.pairwise_singleton _ _, fun a ha b hb => ?_⟩
  rw [List.mem_singleton] at hb
  rw [hb]
  exact hle a ha

theorem mem_bufferAppend (capacity : Nat) (buf : List Double) (t a : Double)
    (ha : a ∈ bufferAppend capacity buf t) : a ∈ buf ∨ a = t := by
  unfold bufferAppend at ha
  have := List.mem_of_mem_drop ha
  rw [List.mem_append, List.mem_singleton] at this
  exact this

/-- Each plot the loop returns is a plot it was given, as it was or with one value and the
time appended. -/
theorem channelLoop_mem (S : Settings) (traces : List Nat) (time : Double) :
    ∀ (plots plots1 : List Plot) (v v1 : LoopVars),
      channelLoop S traces time plots v = some (plots1, v1) →
      ∀ p1 ∈ plots1, ∃ p ∈ plots, p1 = p ∨ ∃ x, p1 = (p.addPoint x).addTimePoint time := by
  intro plots
  induction plots with
  | nil =>
    intro plots1 v v1 hl p1 hp1
    simp only [channelLoop, Option.some.injEq, Prod.mk.injEq] at hl
    rw [← hl.1] at hp1
    simp at hp1
  | cons plot rest ih =>
    intro plots1 v v2 hl p1 hp1
    obtain ⟨plot1, v1, rest1, hs, hr, hpl⟩ :=
      channelLoop_cons_eq_some S traces time _ _ _ _ _ hl
    rw [hpl, List.mem_cons] at hp1
    rcases hp1 with rfl | hin
    · refine ⟨plot, List.mem_cons_self _ _, ?_⟩
      rcases channelStep_eq_some S traces time _ _ _ _ hs with ⟨_, hp, _⟩ | ⟨_, raw, _, hp, _⟩
      · exact Or.inl hp
      · exact Or.inr ⟨_, hp⟩
    · obtain ⟨p, hp, hcase⟩ := ih rest1 v1 v2 hr p1 hin
      exact ⟨p, List.mem_cons_of_mem _ hp, hcase⟩

/-- One frame with a non-negative delta keeps the buffers of a session in order. -/
theorem processFrame_sessionOrdered (h h1 : Handler) (f : Frame) (r : ReaderAnswers)
    (hinv : sessionOrdered h) (hd : Double.ge f.timestamp Double.zero = true)
    (hp : processFrame h f r = some h1) : sessionOrdered h1 := by
  obtain ⟨plots, v, hl, hpl, _, htime, _⟩ := processFrame_eq_some h h1 f r hp
  obtain ⟨ht, hbuf⟩ := hinv
  obtain ⟨ht1, hge⟩ := Double.add_isTime h.time f.timestamp ht hd
  unfold sessionOrdered
  rw [htime, hpl]
  refine ⟨ht1, fun p1 hp1 => ?_⟩
  obtain ⟨p, hpm, hcase⟩ := channelLoop_mem _ _ _ _ _ _ _ hl p1 hp1
  obtain ⟨hs, hle⟩ := hbuf p hpm
  have hle1 : ∀ a ∈ p.timePoints, Double.ge (Double.add h.time f.timestamp) a = true :=
    fun a ha => Double.ge_trans _ _ _ hge (hle a ha)
  rcases hcase with rfl | ⟨x, rfl⟩
  · exact ⟨hs, hle1⟩
  · refine ⟨bufferAppend_nonDecreasing _ _ _ hs hle1, fun a ha => ?_⟩
    rcases mem_bufferAppend _ _ _ _ ha with hin | rfl
    · exact hle1 a hin
    · exact Double.ge_self_of_isTime _ ht1

/-- C11, as the code has it: within a RUN session the timestamps of every buffer are
non-decreasing.  From a state whose elapsed time is a time value and whose buffers are in
order and hold nothing above the elapsed time (such as the state a successful commit into
RUN leaves when the buffers are empty), frames with non-negative deltas keep every buffer
in order, trigger firings and STOP requests included.  A commit leaves the buffers as they
are, and the commit into RUN with a successful start sets the elapsed time back to zero. -/
theorem C11_timestamps_within_session (fs : List (Frame × ReaderAnswers)) (h : Handler)
    (hinv : sessionOrdered h)
    (hd : ∀ fr ∈ fs, Double.ge fr.1.timestamp Double.zero = true) :
    (∀ hn, processFrames h fs = some hn →
      sessionOrdered hn ∧ ∀ p ∈ hn.plotsMap, nonDecreasing p.timePoints) ∧
    (∀ r h1, commit h r = some h1 → h1.plotsMap = h.plotsMap) ∧
    (∀ r h1, h.stateChangeOrdered = true → h.viewerState = state.RUN →
      r.startAcqusition = true → commit h r = some h1 → h1.time = Double.zero) ∧
    ((∀ p ∈ h.plotsMap, p.timePoints = []) →
      sessionOrdered { h with time := Double.zero }) := by
  refine ⟨?_, ?_, ?_, ?_⟩
  · induction fs generalizing h with
    | nil =>
      intro hn hp
      simp only [processFrames, Option.some.injEq] at hp
      rw [← hp]
      exact ⟨hinv, fun p hp => (hinv.2 p hp).1⟩
    | cons fr rest ih =>
      intro hn hp
      unfold processFrames at hp
      cases h1 : processFrame h fr.1 fr.2 with
      | none => simp [h1] at hp
      | some h2 =>
        simp only [h1] at hp
        exact ih h2
          (processFrame_sessionOrdered h h2 fr.1 fr.2 hinv (hd fr (List.mem_cons_self _ _)) h1)
          (fun fr2 hfr2 => hd fr2 (List.mem_cons_of_mem _ hfr2)) hn hp
  · intro r h1 hc
    by_cases hflag : h.stateChangeOrdered = true
    · by_cases hrun : h.viewerState = state.RUN
      · obtain ⟨m, _, hh⟩ := commit_run_eq_some h h1 r hflag hrun hc
        rw [hh]
      · unfold commit at hc
        rw [if_pos hflag, if_neg hrun, Option.some.injEq] at hc
        rw [← hc]
    · unfold commit at hc
      rw [if_neg hflag, Option.some.injEq] at hc
      rw [← hc]
  · intro r h1 hflag hrun hstart hc
    obtain ⟨m, _, hh⟩ := commit_run_eq_some h h1 r hflag hrun hc
    rw [hh]
    simp [hstart]
  · intro hempty
    have hz : Double.isTime Double.zero = true := by
      rw [Double.zero_eq, Double.isTime_fin]
      exact ⟨0, rfl, Double.roundMagnitude_zero, pow_pos (by decide) _⟩
    refine ⟨hz, fun p hp => ?_⟩
    rw [hempty p hp]
    exact ⟨List.Pairwise.nil, fun t ht => by simp at ht⟩

set_option exponentiation.threshold 5000 in
set_option maxRecDepth 4000 in
/-- Counterexample to C11: two frames in RUN, a STOP ordered and committed, a RUN ordered
and two more frames, all deltas `1.0`: the commit into RUN sets the elapsed time back to
zero and keeps the buffers, so the visible plots end with the timestamps `6, 7, 8, 1`. -/
theorem C11_counterexample :
    Double.ge (sampleFrame 0).timestamp Double.zero = true ∧
    sampleRestart.map (fun h => h.plotsMap.map (fun p => p.timePoints))
      = some [[Double.ofNat 6, Double.ofNat 7, Double.ofNat 8, Double.ofNat 1], [],
          [Double.ofNat 6, Double.ofNat 7, Double.ofNat 8, Double.ofNat 1]] ∧
    ¬ nonDecreasing [Double.ofNat 6, Double.ofNat 7, Double.ofNat 8, Double.ofNat 1] := by
  refine ⟨by decide, by decide, ?_⟩
  unfold nonDecreasing
  decide

/-! ## The error window and the oldest timestamp -/

/-- Pruning an ordered window leaves only entries that are not below the bound. -/
theorem dropWhile_ge (o : Double) (ho : Double.isNaN o = false) :
    ∀ w : List Double, nonDecreasing w → (∀ e ∈ w, Double.isNaN e = false) →
      ∀ e ∈ w.dropWhile (fun t => Double.lt t o), Double.ge e o = true := by
  intro w
  induction w with
  | nil => intro _ _ e he; simp at he
  | cons a rest ih =>
    intro hs hn e he
    unfold nonDecreasing at hs
    rw [List.pairwise_cons] at hs
    cases hlt : Double.lt a o with
    | true =>
      rw [List.dropWhile_cons_of_pos (by simpa using hlt)] at he
      exact ih hs.2 (fun x hx => hn x (List.mem_cons_of_mem _ hx)) e he
    | false =>
      rw [List.dropWhile_cons_of_neg (by simp [hlt])] at he
      have ha : Double.ge a o = true :=
        Double.ge_of_not_lt a o hlt (hn a (List.mem_cons_self _ _)) ho
      rcases List.mem_cons.1 he with rfl | hin
      · exact ha
      · exact Double.ge_trans _ _ _ (hs.1 e hin) ha

theorem dropWhile_all (o : Double) :
    ∀ w : List Double, (∀ e ∈ w, Double.lt e o = true) →
      w.dropWhile (fun t => Double.lt t o) = [] := by
  intro w
  induction w with
  | nil => intro _; rfl
  | cons a rest ih =>
    intro hall
    rw [List.dropWhile_cons_of_pos (by simpa using hall a (List.mem_cons_self _ _))]
    exact ih (fun e he => hall e (List.mem_cons_of_mem _ he))

theorem mem_residentTimestamps_head (first : Plot) (rest : List Plot) (t : Double)
    (ht : t ∈ first.timePoints) : t ∈ residentTimestamps (first :: rest) := by
  unfold residentTimestamps
  rw [List.map_cons, List.flatten_cons, List.mem_append]
  exact Or.inl ht

/-- The error window after a frame: ordered by time, nothing ahead of the new elapsed
time, and every entry at or above the oldest timestamp of the first plot in iteration
order, the only plot the prune consults.  When the buffer of that plot holds a timestamp,
every entry is at or above a timestamp resident in a buffer. -/
theorem processFrame_window_bound (h h1 : Handler) (f : Frame) (r : ReaderAnswers)
    (hw : nonDecreasing h.errorFrameTimestamps)
    (hle : ∀ e ∈ h.errorFrameTimestamps, Double.ge h.time e = true)
    (ht : Double.isTime h.time = true)
    (hd : Double.ge f.timestamp Double.zero = true)
    (hp : processFrame h f r = some h1) :
    ∃ first rest, h.plotsMap = first :: rest ∧
      nonDecreasing h1.errorFrameTimestamps ∧
      (∀ e ∈ h1.errorFrameTimestamps, Double.ge h1.time e = true) ∧
      (Double.isNaN first.getOldestValue = false →
        ∀ e ∈ h1.errorFrameTimestamps, Double.ge e first.getOldestValue = true) ∧
      (first.timePoints ≠ [] → Double.isNaN first.getOldestValue = false →
        ∀ e ∈ h1.errorFrameTimestamps,
          ∃ t ∈ residentTimestamps h.plotsMap, Double.ge e t = true) := by
  obtain ⟨_, _, _, _, _, htime, _⟩ := processFrame_eq_some h h1 f r hp
  obtain ⟨first, rest, hm, hwin, _⟩ := processFrame_window h h1 f r hp
  obtain ⟨ht1, hge⟩ := Double.add_isTime h.time f.timestamp ht hd
  have hle1 : ∀ e ∈ h.errorFrameTimestamps,
      Double.ge (Double.add h.time f.timestamp) e = true :=
    fun e he => Double.ge_trans _ _ _ hge (hle e he)
  have hpushed : ∀ pushed : List Double,
      pushed = (if h.errorFrameSinceLastPoint ≠ r.errorFramesTotalAtCheck then
          h.errorFrameTimestamps ++ [Double.add h.time f.timestamp]
        else h.errorFrameTimestamps) →
      nonDecreasing pushed ∧
      ∀ e ∈ pushed, Double.ge (Double.add h.time f.timestamp) e = true := by
    intro pushed hpd
    by_cases hne : h.errorFrameSinceLastPoint ≠ r.errorFramesTotalAtCheck
    · rw [if_pos hne] at hpd
      rw [hpd]
      refine ⟨?_, fun e he => ?_⟩
      · unfold nonDecreasing
        rw [List.pairwise_append]
        refine ⟨hw, List.pairwise_singleton _ _, fun a ha b hb => ?_⟩
        rw [List.mem_singleton] at hb
        rw [hb]
        exact hle1 a ha
      · rcases List.mem_append.1 he with hin | hin
        · exact hle1 e hin
        · rw [List.mem_singleton] at hin
          rw [hin]
          exact Double.ge_self_of_isTime _ ht1
    · rw [if_neg hne] at hpd
      rw [hpd]
      exact ⟨hw, hle1⟩
  obtain ⟨hs, hbound⟩ := hpushed _ rfl
  have hsub := (List.dropWhile_suffix (fun t => Double.lt t first.getOldestValue)
    (l := if h.errorFrameSinceLastPoint ≠ r.errorFramesTotalAtCheck then
          h.errorFrameTimestamps ++ [Double.add h.time f.timestamp]
        else h.errorFrameTimestamps)).sublist
  have hfirst : Double.isNaN first.getOldestValue = false →
      ∀ e ∈ h1.errorFrameTimestamps, Double.ge e first.getOldestValue = true := by
    intro hnan e he
    rw [hwin] at he
    exact dropWhile_ge _ hnan _ hs (fun x hx => (Double.isNaN_of_ge _ _ (hbound x hx)).2) e he
  refine ⟨first, rest, hm, ?_, ?_, hfirst, fun hne hnan e he => ?_⟩
  · rw [hwin]
    exact List.Pairwise.sublist hsub hs
  · intro e he
    rw [hwin] at he
    rw [htime]
    exact hbound e (hsub.subset he)
  · refine ⟨first.getOldestValue, ?_, hfirst hnan e he⟩
    rw [hm]
    apply mem_residentTimestamps_head
    unfold Plot.getOldestValue
    cases hb : first.timePoints with
    | nil => exact absurd hb hne
    | cons a l => simp

/-- On a frame without a new error the window is emptied when every entry is below the
oldest timestamp of the first plot, as it is when the buffer of that plot holds a
timestamp and every timestamp resident in the buffers is above every entry. -/
theorem processFrame_window_emptied (h h1 : Handler) (f : Frame) (r : ReaderAnswers)
    (hno : h.errorFrameSinceLastPoint = r.errorFramesTotalAtCheck)
    (hp : processFrame h f r = some h1) :
    ∃ first rest, h.plotsMap = first :: rest ∧
      ((∀ e ∈ h.errorFrameTimestamps, Double.lt e first.getOldestValue = true) →
        h1.errorFrameTimestamps = []) ∧
      (first.timePoints ≠ [] →
        (∀ e ∈ h.errorFrameTimestamps, ∀ t ∈ residentTimestamps h.plotsMap,
          Double.lt e t = true) →
        h1.errorFrameTimestamps = []) := by
  obtain ⟨first, rest, hm, hwin, _⟩ := processFrame_window h h1 f r hp
  rw [if_neg (not_not.2 hno)] at hwin
  have hgen : (∀ e ∈ h.errorFrameTimestamps, Double.lt e first.getOldestValue = true) →
      h1.errorFrameTimestamps = [] := by
    intro hall
    rw [hwin]
    exact dropWhile_all _ _ hall
  refine ⟨first, rest, hm, hgen, fun hne hall => hgen (fun e he => hall e he _ ?_)⟩
  rw [hm]
  apply mem_residentTimestamps_head
  unfold Plot.getOldestValue
  cases hb : first.timePoints with
  | nil => exact absurd hb hne
  | cons a l => simp

/-- While the buffer of the first plot holds nothing, what a frame without a new error
prunes is decided by the answer that plot gives for an empty buffer, whatever the other
buffers hold. -/
theorem processFrame_window_empty_buffer (h h1 : Handler) (f : Frame) (r : ReaderAnswers)
    (hno : h.errorFrameSinceLastPoint = r.errorFramesTotalAtCheck)
    (hp : processFrame h f r = some h1) :
    ∃ first rest, h.plotsMap = first :: rest ∧
      (first.timePoints = [] →
        h1.errorFrameTimestamps =
          h.errorFrameTimestamps.dropWhile (fun t => Double.lt t first.oldestWhenEmpty)) := by
  obtain ⟨first, rest, hm, hwin, _⟩ := processFrame_window h h1 f r hp
  rw [if_neg (not_not.2 hno)] at hwin
  refine ⟨first, rest, hm, fun hempty => ?_⟩
  rw [hwin]
  unfold Plot.getOldestValue
  rw [hempty]
  rfl

/-! ## Witnesses of the frame and commit properties -/

set_option exponentiation.threshold 5000 in
set_option maxRecDepth 4000 in
/-- Witness of C11: `sampleHandler 0` (elapsed time `5.0`, empty buffers) is in order, the
four frames of `sampleSession` have the delta `1.0`, and the buffers after them, with the
trigger fired on the third, are in order. -/
theorem C11_timestamps_within_session_witness :
    sessionOrdered (sampleHandler 0) ∧
    (∀ fr ∈ sampleSession, Double.ge fr.1.timestamp Double.zero = true) ∧
    processFrames (sampleHandler 0) sampleSession = some (sampleSessionAfter 4) ∧
    (sampleSessionAfter 4).traceTriggered = true ∧
    sessionOrdered (sampleSessionAfter 4) ∧
    ∀ p ∈ (sampleSessionAfter 4).plotsMap, nonDecreasing p.timePoints := by
  have hinv : sessionOrdered (sampleHandler 0) := by
    refine ⟨by decide, fun p hp => ?_⟩
    have hempty : p.timePoints = [] := by
      simp only [sampleHandler, List.mem_cons, List.mem_singleton, List.not_mem_nil,
        or_false] at hp
      rcases hp with rfl | rfl | rfl <;> rfl
    rw [hempty]
    exact ⟨List.Pairwise.nil, fun t ht => by simp at ht⟩
  have hd : ∀ fr ∈ sampleSession, Double.ge fr.1.timestamp Double.zero = true := by decide
  have hrun : processFrames (sampleHandler 0) sampleSession = some (sampleSessionAfter 4) := by
    decide
  have hall := (C11_timestamps_within_session sampleSession (sampleHandler 0) hinv hd).1
    (sampleSessionAfter 4) hrun
  exact ⟨hinv, hd, hrun, by decide, hall.1, hall.2⟩

/-- Witness of C14: `sampleOrdered` has three plots, the second hidden; the commit passes
a mask of 32 entries that starts true, false, true and is false from position 3 on. -/
theorem C14_active_channel_mask_witness :
    sampleOrdered.stateChangeOrdered = true ∧ sampleOrdered.viewerState = state.RUN ∧
    ∃ h1 mask, commit sampleOrdered (sampleAnswers true 0 true) = some h1 ∧
      h1.calls = sampleOrdered.calls ++ [ReaderCall.startAcqusition mask] ∧
      mask.length = 32 ∧ mask[0]? = some true ∧ mask[1]? = some false ∧
      mask[2]? = some true ∧ mask[31]? = some false := by
  have hthm := C14_active_channel_mask sampleOrdered (sampleAnswers true 0 true) rfl rfl
  obtain ⟨h1, hc⟩ := hthm.1 (by decide)
  obtain ⟨mask, hcalls, hlen, hvis, hhigh, _⟩ := hthm.2 h1 hc
  exact ⟨rfl, rfl, h1, mask, hc, hcalls, hlen, hvis 0 (digitalPlot "CH0" true) rfl,
    hvis 1 (digitalPlot "CH1" false) rfl, hvis 2 (digitalPlot "CH10" true) rfl,
    hhigh 31 (by decide) (by decide)⟩

/-- Witness of C16: a frame on `sampleHandler 0` leaves the hidden second plot as it was
and appends to the first and third plots the decoded words of slots 0 and 2. -/
theorem C16_frame_appends_witness :
    (sampleHandler 0).plotsMap.length < 4294967296 ∧
    ∃ h1, processFrame (sampleHandler 0) (sampleFrame 0xAA) (sampleAnswers true 0xAA true)
        = some h1 ∧
      h1.time = Double.add (sampleHandler 0).time (sampleFrame 0xAA).timestamp ∧
      h1.plotsMap[1]? = some (digitalPlot "CH1" false) ∧
      (∃ raw, readTraces (sampleFrame 0xAA).traces 0 = some raw ∧
        h1.plotsMap[0]? = some (((digitalPlot "CH0" true).addPoint
          (getDoubleValue (digitalPlot "CH0" true) raw)).addTimePoint h1.time)) ∧
      (∃ raw, readTraces (sampleFrame 0xAA).traces 2 = some raw ∧
        h1.plotsMap[2]? = some (((digitalPlot "CH10" true).addPoint
          (getDoubleValue (digitalPlot "CH10" true) raw)).addTimePoint h1.time)) := by
  have hthm := C16_frame_appends (sampleHandler 0) (sampleFrame 0xAA)
    (sampleAnswers true 0xAA true) (by decide)
  obtain ⟨h1, hp⟩ := hthm.1 (by decide) (by decide)
  obtain ⟨ht, _, hplots⟩ := hthm.2 h1 hp
  exact ⟨by decide, h1, hp, ht, (hplots 1 (digitalPlot "CH1" false) rfl).1 rfl,
    (hplots 0 (digitalPlot "CH0" true) rfl).2 rfl,
    (hplots 2 (digitalPlot "CH10" true) rfl).2 rfl⟩

/-- Witness of C18: `sampleOrdered` is in RUN with the flag set; an iteration in which no
frame is available ends with the flag still set and nothing appended. -/
theorem C18_flag_and_frame_order_witness :
    sampleOrdered.stateChangeOrdered = true ∧ sampleOrdered.viewerState = state.RUN ∧
    ∃ h1, iteration sampleOrdered { sampleAnswers true 0 true with readTrace := none }
        = some h1 ∧
      h1.stateChangeOrdered = true ∧ h1.time = sampleOrdered.time ∧
      h1.plotsMap = sampleOrdered.plotsMap :=
  ⟨rfl, rfl,
    (C18_flag_and_frame_order sampleOrdered { sampleAnswers true 0 true with readTrace := none }
      rfl).2.1 rfl rfl⟩

set_option exponentiation.threshold 5000 in
set_option maxRecDepth 4000 in
/-- Witness of C20: the trigger channel of `sampleHandler 1` is the hidden second plot; a
frame with the sentinel in slot 1 leaves the handler untriggered. -/
theorem C20_hidden_trigger_channel_witness :
    (sampleHandler 1).plotsMap.length < 4294967296 ∧
    processFrame (sampleHandler 1) sentinelInSlotOne (sampleAnswers true 0 true)
      = some (afterFrame (sampleHandler 1) sentinelInSlotOne (sampleAnswers true 0 true)) ∧
    (sampleHandler 1).plotsMap[castU32 (sampleHandler 1).traceSettings.triggerChannel]?
      = some (digitalPlot "CH1" false) ∧
    (afterFrame (sampleHandler 1) sentinelInSlotOne (sampleAnswers true 0 true)).traceTriggered
      = (sampleHandler 1).traceTriggered :=
  ⟨by decide, by decide, by decide,
    (C20_hidden_trigger_channel (sampleHandler 1)
      (afterFrame (sampleHandler 1) sentinelInSlotOne (sampleAnswers true 0 true))
      sentinelInSlotOne (sampleAnswers true 0 true) (by decide) (by decide)).1
      (digitalPlot "CH1" false) (by decide) rfl⟩

set_option exponentiation.threshold 5000 in
set_option maxRecDepth 4000 in
/-- Witness of C17: on `sampleWindow [3, 5]` a frame with the counter of the reader at 1
(the remembered one is 0) is processed to the end; `6.0` is pushed, `3.0` is pruned against
the oldest timestamp `4.0`, and the remembered counter becomes 1. -/
theorem C17_error_window_append_witness :
    ∃ h1, processFrame (sampleWindow [Double.ofNat 3, Double.ofNat 5]) (sampleFrame 0)
        (errorAnswers 1) = some h1 ∧
      h1.time = Double.ofNat 6 ∧ h1.errorFrameSinceLastPoint = 1 ∧
      h1.errorFrameTimestamps = [Double.ofNat 5, Double.ofNat 6] := by
  have hthm := C17_error_window_append (sampleWindow [Double.ofNat 3, Double.ofNat 5])
    (sampleFrame 0) (errorAnswers 1)
  obtain ⟨h1, hp⟩ := hthm.1 (by decide) (by decide)
  obtain ⟨ht, hc, first, pushed, hfirst, hpush, _, hw⟩ := hthm.2 h1 hp
  have hf : first = { digitalPlot "CH0" true with
      maxPoints := 2, points := [Double.zero, Double.zero],
      timePoints := [Double.ofNat 4, Double.ofNat 5] } := by
    simp only [sampleWindow, List.head?_cons, Option.some.injEq] at hfirst
    exact hfirst.symm
  have ht6 : h1.time = Double.ofNat 6 := by
    rw [ht]
    decide
  refine ⟨h1, hp, ht6, hc, ?_⟩
  rw [hw, hpush (by decide), ht6, hf]
  decide

/-! ## The lookups of a frame and the ten raw words -/

end TracePlotHandler
